import Mathlib

/-!
Verification of the heuristic document-to-structured-resume pipeline of the
resume-analysis repository.

The development shallowly embeds the markdown resume parser
(extractSections / parsePersonalInfo / parseSummary / parseExperiences /
parseEducation / parseSkills / parseProjects / buildParsedResume), the
structured-resume markdown renderer (generateMarkdown), and the per-page
PDF glyph-layout reconstruction loop of extractPdfText.

Modelling conventions, used uniformly below:
* JavaScript strings are Lean `String`s; character classes such as \d, \w
  and \s are modelled on the ASCII range (all inputs exercised by the
  theorems are ASCII or fixed CJK literals, which the classes reject just
  as the originals do).
* Unanchored JavaScript regexes are executed by a small backtracking
  matcher (`Pat` / `mrun`) with ordered alternation and greedy iteration,
  mirroring the leftmost-first semantics of the JS engine; anchored
  patterns of fixed shape are written as direct list matchers.
* Record `id` fields (v4 UUIDs) and the `parsedAt` timestamp are fresh,
  nondeterministically generated values; they are omitted from the
  embedded records, matching the claims, which disregard ids/timestamps.
* TypeScript `number` confidences are `Nat` (all increments are
  nonnegative integers); `Math.round(sum/len)` on nonnegative integers is
  the exact half-up rounding `(2*sum + len) / (2*len)`.
* A TypeScript field that can be `undefined` is an `Option`; a field that
  can be `undefined` or `null` (the end dates) is an `Option (Option _)`,
  with `none` = undefined and `some none` = null.
-/

set_option maxRecDepth 8000

namespace ResumeAnalysis

/-! ## Character classes and basic string helpers -/

/-- JavaScript regex class \d (ASCII digits). -/
def isDigitJS (c : Char) : Bool := '0' ≤ c && c ≤ '9'

/-- JavaScript regex class \w: ASCII letters, digits and underscore. -/
def isWordJS (c : Char) : Bool :=
  ('a' ≤ c && c ≤ 'z') || ('A' ≤ c && c ≤ 'Z') || isDigitJS c || c = '_'

/-- JavaScript regex class \s, on the ASCII range (space, tab, LF, VT, FF, CR). -/
def isSpaceJS (c : Char) : Bool :=
  c = ' ' || c = '\t' || c = '\n' || c = '\r' || c = '\x0b' || c = '\x0c'

def isLowerAZ (c : Char) : Bool := 'a' ≤ c && c ≤ 'z'

def isUpperAZ (c : Char) : Bool := 'A' ≤ c && c ≤ 'Z'

/-- Characters matched by the JavaScript regex dot (anything but line terminators). -/
def isDotChar (c : Char) : Bool :=
  c ≠ '\n' && c ≠ '\r' && c.toNat ≠ 0x2028 && c.toNat ≠ 0x2029

/-- ASCII lower-casing; models String.prototype.toLowerCase on the inputs used here. -/
def asciiLower (c : Char) : Char :=
  if 'A' ≤ c && c ≤ 'Z' then Char.ofNat (c.toNat + 32) else c

def lowerStr (s : String) : String := ⟨s.data.map asciiLower⟩

/-- String.prototype.startsWith, on the underlying character lists. -/
def strStartsWith (s pre : String) : Bool := pre.data.isPrefixOf s.data

/-- Concatenate with a separator (Array-join / String.prototype.join). -/
def joinSep (sep : String) : List String → String
  | [] => ""
  | [a] => a
  | a :: rest => a ++ sep ++ joinSep sep rest

/-- String.prototype.trim (whitespace stripped from both ends). -/
def jsTrim (s : String) : String :=
  ⟨((s.data.dropWhile isSpaceJS).reverse.dropWhile isSpaceJS).reverse⟩

/-- Splitting on a character predicate, with String.prototype.split semantics
(the empty string yields one empty field; separators at the ends yield empty fields). -/
def splitCharsAux (p : Char → Bool) : List Char → List Char → List (List Char)
  | [], acc => [acc.reverse]
  | c :: cs, acc =>
    if p c then acc.reverse :: splitCharsAux p cs []
    else splitCharsAux p cs (c :: acc)

def jsSplit (p : Char → Bool) (s : String) : List String :=
  (splitCharsAux p s.data []).map (fun l => ⟨l⟩)

/-- String.prototype.includes, on char lists (needle first). -/
def containsSub (needle : List Char) : List Char → Bool
  | [] => needle.isEmpty
  | c :: t => needle.isPrefixOf (c :: t) || containsSub needle t

def strContains (hay needle : String) : Bool := containsSub needle.data hay.data

/-- Case-insensitive containment: the haystack is lowercased, the needle is
given already lowercased (as the source's keyword alternations are). -/
def containsCI (hay : String) (needle : String) : Bool :=
  strContains (lowerStr hay) needle

/-- Case-insensitive prefix test (needle first). -/
def ciIsPrefix : List Char → List Char → Bool
  | [], _ => true
  | _ :: _, [] => false
  | a :: as, b :: bs => (asciiLower a = asciiLower b) && ciIsPrefix as bs

/-! ## A small backtracking regex matcher

`Pat` covers exactly the constructs appearing in the source's unanchored
regexes: character classes, (optionally case-insensitive) literals,
concatenation, ordered alternation and greedy star.  `mrun` is a
continuation-passing backtracking matcher: alternatives are tried in
order, stars are greedy, and the first overall success wins — the
leftmost-first match policy of the JavaScript engine. -/

inductive Pat where
  | eps : Pat
  | cls : (Char → Bool) → Pat
  | lit : List Char → Bool → Pat
  | seq : Pat → Pat → Pat
  | alt : Pat → Pat → Pat
  | star : Pat → Pat

def Pat.opt (p : Pat) : Pat := .alt p .eps

def Pat.plus (p : Pat) : Pat := .seq p (.star p)

/-- Strip a literal (case-insensitively when ci is set) from the front. -/
def stripLit (ci : Bool) : List Char → List Char → Option (List Char)
  | [], s => some s
  | _ :: _, [] => none
  | a :: as, b :: bs =>
    if (if ci then asciiLower a = asciiLower b else a = b) then stripLit ci as bs
    else none

/-- Greedy iteration: try one more body match first (requiring progress, which
also realizes the engine's empty-match loop cutoff), else hand over to the
continuation. -/
def starLoop (m : List Char → (List Char → Option (List Char)) → Option (List Char)) :
    Nat → List Char → (List Char → Option (List Char)) → Option (List Char)
  | 0, s, k => k s
  | n + 1, s, k =>
    match m s (fun s' => if s'.length < s.length then starLoop m n s' k else none) with
    | some r => some r
    | none => k s

/-- Backtracking matcher: match p at the front of the input, then the
continuation on the rest; return the first success's final remainder. -/
def mrun : Pat → List Char → (List Char → Option (List Char)) → Option (List Char)
  | .eps, s, k => k s
  | .cls f, s, k =>
    match s with
    | [] => none
    | c :: cs => if f c then k cs else none
  | .lit l ci, s, k =>
    match stripLit ci l s with
    | some rest => k rest
    | none => none
  | .seq p q, s, k => mrun p s (fun t => mrun q t k)
  | .alt p q, s, k =>
    match mrun p s k with
    | some r => some r
    | none => mrun q s k
  | .star p, s, k => starLoop (fun t k2 => mrun p t k2) s.length s k

/-- Leftmost unanchored search; returns the matched characters. -/
def searchFrom (p : Pat) : List Char → Option (List Char)
  | [] =>
    match mrun p [] some with
    | some _ => some []
    | none => none
  | c :: cs =>
    match mrun p (c :: cs) some with
    | some rest => some ((c :: cs).take ((c :: cs).length - rest.length))
    | none => searchFrom p cs

/-- RegExp.prototype.exec-match value ([0], the matched substring), or none. -/
def regexFind (p : Pat) (s : String) : Option String :=
  (searchFrom p s.data).map (fun l => ⟨l⟩)

/-- RegExp.prototype.test. -/
def regexTest (p : Pat) (s : String) : Bool := (searchFrom p s.data).isSome

/-- String.prototype.replace with the g flag and an empty replacement:
leftmost non-overlapping matches are removed. -/
def replaceAllAux (p : Pat) : Nat → List Char → List Char
  | 0, s => s
  | _ + 1, [] => []
  | n + 1, c :: cs =>
    match mrun p (c :: cs) some with
    | some rest =>
      if rest.length < (c :: cs).length then replaceAllAux p n rest
      else c :: replaceAllAux p n cs
    | none => c :: replaceAllAux p n cs

def regexReplaceAll (p : Pat) (s : String) : String :=
  ⟨replaceAllAux p (s.data.length + 1) s.data⟩

/-! ## The source's unanchored regexes as patterns -/

/-- The class [\w.-]. -/
def wordDotDash : Pat := .cls (fun c => isWordJS c || c = '.' || c = '-')

/-- /[\w.-]+@[\w.-]+\.\w+/ (email extraction). -/
def emailPat : Pat :=
  .seq (.plus wordDotDash) (.seq (.lit ['@'] false)
    (.seq (.plus wordDotDash) (.seq (.lit ['.'] false) (.plus (.cls isWordJS)))))

/-- The class [-.\s]. -/
def sepCls : Pat := .cls (fun c => c = '-' || c = '.' || isSpaceJS c)

def dCls : Pat := .cls isDigitJS

def dRep3 : Pat := .seq dCls (.seq dCls dCls)

def dRep4 : Pat := .seq dRep3 dCls

/-- \d{1,3}, greedy. -/
def d1to3 : Pat := .seq dCls (.opt (.seq dCls (.opt dCls)))

/-- \d{2,4}, greedy. -/
def d2to4 : Pat := .seq dCls (.seq dCls (.opt (.seq dCls (.opt dCls))))

/-- \d{3,4}, greedy. -/
def d3to4 : Pat := .seq dRep3 (.opt dCls)

/-- First phone alternative (?:\+?1[-.\s]?)?\(?\d{3}\)?[-.\s]?\d{3}[-.\s]?\d{4};
also the phone pattern stripped from the name line. -/
def phoneA : Pat :=
  .seq (.opt (.seq (.opt (.lit ['+'] false)) (.seq (.lit ['1'] false) (.opt sepCls))))
    (.seq (.opt (.lit ['('] false))
      (.seq dRep3
        (.seq (.opt (.lit [')'] false))
          (.seq (.opt sepCls) (.seq dRep3 (.seq (.opt sepCls) dRep4))))))

/-- Second phone alternative \+\d{1,3}[-.\s]?\d{2,4}[-.\s]?\d{3,4}[-.\s]?\d{3,4}. -/
def phoneB : Pat :=
  .seq (.lit ['+'] false)
    (.seq d1to3
      (.seq (.opt sepCls)
        (.seq d2to4 (.seq (.opt sepCls) (.seq d3to4 (.seq (.opt sepCls) d3to4))))))

def phonePat : Pat := .alt phoneA phoneB

/-- The class [^\s,]. -/
def noSpaceComma : Pat := .cls (fun c => !isSpaceJS c && c ≠ ',')

/-- /(?:linkedin\.com\/in\/|linkedin:\s*)([^\s,]+)/i — the code uses match[0]. -/
def linkedInPat : Pat :=
  .seq (.alt (.lit "linkedin.com/in/".data true)
             (.seq (.lit "linkedin:".data true) (.star (.cls isSpaceJS))))
    (.plus noSpaceComma)

/-- /(?:github\.com\/|github:\s*)([^\s,]+)/i — the code uses match[0]. -/
def githubPat : Pat :=
  .seq (.alt (.lit "github.com/".data true)
             (.seq (.lit "github:".data true) (.star (.cls isSpaceJS))))
    (.plus noSpaceComma)

/-- /(?:portfolio|website|www)\.?[:\s]*([^\s,]+)/i. -/
def portfolioPat : Pat :=
  .seq (.alt (.lit "portfolio".data true) (.alt (.lit "website".data true) (.lit "www".data true)))
    (.seq (.opt (.lit ['.'] false))
      (.seq (.star (.cls (fun c => c = ':' || isSpaceJS c))) (.plus noSpaceComma)))

/-- [A-Z][a-z]+ . -/
def capWord : Pat := .seq (.cls isUpperAZ) (.plus (.cls isLowerAZ))

/-- [A-Z][a-z]+(?:\s[A-Z][a-z]+)* . -/
def capWords : Pat := .seq capWord (.star (.seq (.cls isSpaceJS) capWord))

/-- /([A-Z][a-z]+(?:\s[A-Z][a-z]+)*),?\s*(?:[A-Z]{2}|[A-Z][a-z]+(?:\s[A-Z][a-z]+)*)/
(location heuristic). -/
def locationPat : Pat :=
  .seq capWords
    (.seq (.opt (.lit [','] false))
      (.seq (.star (.cls isSpaceJS))
        (.alt (.seq (.cls isUpperAZ) (.cls isUpperAZ)) capWords)))

/-- /https?:\/\/[^\s]+/i (project URLs). -/
def urlPatCi : Pat :=
  .seq (.lit "http".data true)
    (.seq (.opt (.lit ['s'] true))
      (.seq (.lit "://".data false) (.plus (.cls (fun c => !isSpaceJS c)))))

/-- /https?:\/\/[^\s]+/ without the i flag (URL stripped from the name line). -/
def urlPatCs : Pat :=
  .seq (.lit "http".data false)
    (.seq (.opt (.lit ['s'] false))
      (.seq (.lit "://".data false) (.plus (.cls (fun c => !isSpaceJS c)))))

/-! ## Anchored heading and bullet regexes -/

/-- Backtracking resolution of the trailing \s+(.+)$ of the heading/bullet
regexes.  The first argument is the reversed whitespace run consumed by \s+
(shortened one character at a time, never below one character); the second is
the candidate group, which must be nonempty and line-terminator free. -/
def headGroupSplits : List Char → List Char → Option (List Char)
  | sr, group =>
    if group ≠ [] && group.all isDotChar then some group
    else
      match sr with
      | [] => none
      | [_] => none
      | c :: rest => headGroupSplits rest (c :: group)

/-- Shared matcher for the anchored markdown-marker regexes: given the text
after the fixed prefix, match \s+(.+)$ and return the group. -/
def headGroup (rest : List Char) : Option String :=
  let w := rest.takeWhile isSpaceJS
  let r := rest.dropWhile isSpaceJS
  if w = [] then none
  else (headGroupSplits w.reverse r).map (fun g => (⟨g⟩ : String))

/-- /^##\s+(.+)$/ applied to a raw line (a third leading # makes \s+ fail). -/
def h2Match (line : String) : Option String :=
  match line.data with
  | '#' :: '#' :: rest => headGroup rest
  | _ => none

/-- /^###\s+(.+)$/ applied to a trimmed line. -/
def h3Match (line : String) : Option String :=
  match line.data with
  | '#' :: '#' :: '#' :: rest => headGroup rest
  | _ => none

/-- /^[-*]\s+(.+)$/ applied to a trimmed line. -/
def bulletMatch (t : String) : Option String :=
  match t.data with
  | c :: rest => if c = '-' || c = '*' then headGroup rest else none
  | [] => none

/-! ## The date-range regexes

All three date-range regexes are alternations of "date atoms" joined by
\s*[-–]\s*.  Each atom is deterministic at a given start position (\w+ and
\s+ runs are forced maximal because shortening them leaves a character the
following piece cannot match), so a faithful search tries the atoms in
alternation order at each successive start position, retrying on
continuation failure exactly as the backtracking engine does. -/

inductive DAtom where
  | y4 : DAtom
  | wordY4 : DAtom
  | mmY4 : DAtom
  | lit : String → DAtom

/-- \d{4} (the following character may be anything, including a digit). -/
def take4Digits : List Char → Option (List Char × List Char)
  | a :: b :: c :: d :: rest =>
    if isDigitJS a && isDigitJS b && isDigitJS c && isDigitJS d then some ([a, b, c, d], rest)
    else none
  | _ => none

def matchAtom : DAtom → List Char → Option (List Char × List Char)
  | .y4, l => take4Digits l
  | .wordY4, l =>
    let w := l.takeWhile isWordJS
    let r := l.dropWhile isWordJS
    if w = [] then none
    else
      let sp := r.takeWhile isSpaceJS
      let r2 := r.dropWhile isSpaceJS
      if sp = [] then none
      else
        match take4Digits r2 with
        | some (d, rest) => some (w ++ sp ++ d, rest)
        | none => none
  | .mmY4, l =>
    match l with
    | a :: b :: c :: rest =>
      if isDigitJS a && isDigitJS b && c = '/' then
        match take4Digits rest with
        | some (d, r) => some ([a, b, c] ++ d, r)
        | none => none
      else if isDigitJS a && b = '/' then
        match take4Digits (c :: rest) with
        | some (d, r) => some ([a, b] ++ d, r)
        | none => none
      else none
    | _ => none
  | .lit s, l =>
    if ciIsPrefix s.data l then some (l.take s.data.length, l.drop s.data.length) else none

def tryDateAt (sa ea : List DAtom) (l : List Char) : Option (String × String) :=
  sa.findSome? fun a =>
    match matchAtom a l with
    | none => none
    | some (g1, r1) =>
      match r1.dropWhile isSpaceJS with
      | [] => none
      | d :: r3 =>
        if d = '-' || d = '–' then
          let r4 := r3.dropWhile isSpaceJS
          ea.findSome? fun b =>
            match matchAtom b r4 with
            | none => none
            | some (g2, _) => some ((⟨g1⟩ : String), (⟨g2⟩ : String))
        else none

def dateSearchAux (sa ea : List DAtom) : List Char → Option (String × String)
  | [] => none
  | c :: t =>
    match tryDateAt sa ea (c :: t) with
    | some r => some r
    | none => dateSearchAux sa ea t

def dateSearch (sa ea : List DAtom) (s : String) : Option (String × String) :=
  dateSearchAux sa ea s.data

/-- Experience date-range alternatives
(\d{4}|\w+\s+\d{4}|\d{1,2}\/\d{4}) - (…|Present|Current|Now|今). -/
def expStartAtoms : List DAtom := [.y4, .wordY4, .mmY4]

def expEndAtoms : List DAtom :=
  [.y4, .wordY4, .mmY4, .lit "Present", .lit "Current", .lit "Now", .lit "今"]

/-- Education date-range alternatives (\d{4}|\w+\s+\d{4}) - (…|Present|Current|Expected|预计). -/
def eduStartAtoms : List DAtom := [.y4, .wordY4]

def eduEndAtoms : List DAtom :=
  [.y4, .wordY4, .lit "Present", .lit "Current", .lit "Expected", .lit "预计"]

/-- Project date-range alternatives (\d{4}|\w+\s+\d{4}) - (…|Present|Current|Ongoing). -/
def projStartAtoms : List DAtom := [.y4, .wordY4]

def projEndAtoms : List DAtom := [.y4, .wordY4, .lit "Present", .lit "Current", .lit "Ongoing"]

/-! ## normalizeDate -/

def monthMap : List (String × String) :=
  [("january", "01"), ("february", "02"), ("march", "03"), ("april", "04"),
   ("may", "05"), ("june", "06"), ("july", "07"), ("august", "08"),
   ("september", "09"), ("october", "10"), ("november", "11"), ("december", "12"),
   ("jan", "01"), ("feb", "02"), ("mar", "03"), ("apr", "04"), ("jun", "06"),
   ("jul", "07"), ("aug", "08"), ("sep", "09"), ("oct", "10"), ("nov", "11"),
   ("dec", "12")]

/-- /^\d{4}$/. -/
def isYYYY (l : List Char) : Bool := l.length = 4 && l.all isDigitJS

/-- /^(\d{1,2})\/(\d{4})$/ — both capture groups. -/
def matchMMYYYY (l : List Char) : Option (List Char × List Char) :=
  match l with
  | a :: b :: c :: rest =>
    if b = '/' then
      if isDigitJS a && isYYYY (c :: rest) then some ([a], c :: rest) else none
    else if c = '/' then
      if isDigitJS a && isDigitJS b && isYYYY rest then some ([a, b], rest) else none
    else none
  | _ => none

/-- /^(\w+)\s+(\d{4})$/i — both capture groups (\w+ and \s+ are forced maximal). -/
def matchMonthYYYY (l : List Char) : Option (List Char × List Char) :=
  let w := l.takeWhile isWordJS
  let r := l.dropWhile isWordJS
  if w = [] then none
  else
    let sp := r.takeWhile isSpaceJS
    let r2 := r.dropWhile isSpaceJS
    if sp = [] then none
    else if isYYYY r2 then some (w, r2) else none

def normalizeDate (dateStr : String) : String :=
  if isYYYY dateStr.data then dateStr ++ "-01-01"
  else
    match matchMMYYYY dateStr.data with
    | some (m, y) =>
      let month : String := if m.length < 2 then (⟨'0' :: m⟩ : String) else (⟨m⟩ : String)
      (⟨y⟩ : String) ++ "-" ++ month ++ "-01"
    | none =>
      match matchMonthYYYY dateStr.data with
      | some (w, y) =>
        let month := (monthMap.lookup (lowerStr (⟨w⟩ : String))).getD "01"
        (⟨y⟩ : String) ++ "-" ++ month ++ "-01"
      | none => dateStr

/-! ## Keyword tables and tests -/

/-- Job-title keyword alternation /engineer|developer|…|administrator/i as a
containment test. -/
def titleKeywordsTest (s : String) : Bool :=
  ["engineer", "developer", "manager", "analyst", "consultant", "designer",
   "architect", "lead", "senior", "junior", "intern", "director", "specialist",
   "coordinator", "associate", "scientist", "researcher", "programmer",
   "administrator"].any (fun k => containsCI s k)

/-- /bachelor|master|ph\.?d|doctor|associate|b\.?s\.?|m\.?s\.?|b\.?a\.?|m\.?a\.?|mba|学士|硕士|博士/i
as a containment test; the optional-dot alternatives are expanded, dropping the
redundant trailing-dot forms (a string containing "bs." also contains "bs"). -/
def degreeKeywordsTest (s : String) : Bool :=
  ["bachelor", "master", "phd", "ph.d", "doctor", "associate", "bs", "b.s",
   "ms", "m.s", "ba", "b.a", "ma", "m.a", "mba", "学士", "硕士", "博士"].any
    (fun k => containsCI s k)

/-- /university|college|institute|school|学院|大学/i as a containment test. -/
def institutionTest (s : String) : Bool :=
  ["university", "college", "institute", "school", "学院", "大学"].any (fun k => containsCI s k)

/-- /present|current|now|今/i on the matched experience end date. -/
def presentTestExp (s : String) : Bool :=
  ["present", "current", "now", "今"].any (fun k => containsCI s k)

/-- /present|current|expected|预计/i on the matched education end date. -/
def presentTestEdu (s : String) : Bool :=
  ["present", "current", "expected", "预计"].any (fun k => containsCI s k)

/-- /present|current|ongoing/i on the matched project end date. -/
def presentTestProj (s : String) : Bool :=
  ["present", "current", "ongoing"].any (fun k => containsCI s k)

/-- Soft-skill phrase list of parseSkills. -/
def softSkillsKeywords : List String :=
  ["leadership", "communication", "teamwork", "collaboration", "problem solving",
   "critical thinking", "time management", "project management", "adaptability",
   "creativity", "analytical", "attention to detail", "negotiation",
   "public speaking", "conflict resolution", "emotional intelligence", "mentoring"]

/-- Core technology list of parseSkills. -/
def techKeywords : List String :=
  ["python", "javascript", "typescript", "java", "c++", "c#", "go", "rust", "php",
   "ruby", "swift", "kotlin", "react", "vue", "angular", "nextjs", "node", "django",
   "fastapi", "spring", "express", "sql", "mysql", "mongodb", "redis", "aws", "gcp",
   "azure", "docker", "kubernetes", "git"]

/-- /^tech|^stack|^built with|^technologies/i. -/
def techLineTest (s : String) : Bool :=
  ["tech", "stack", "built with", "technologies"].any (fun k => ciIsPrefix k.data s.data)

/-- /gpa[:\s]*(\d+\.?\d*)/i at one position — group 1. -/
def gpaAt (l : List Char) : Option (List Char) :=
  if ciIsPrefix "gpa".data l then
    let r := (l.drop 3).dropWhile (fun c => c = ':' || isSpaceJS c)
    let d1 := r.takeWhile isDigitJS
    if d1 = [] then none
    else
      let r2 := r.dropWhile isDigitJS
      match r2 with
      | '.' :: r3 => some (d1 ++ '.' :: r3.takeWhile isDigitJS)
      | _ => some d1
  else none

def gpaSearch : List Char → Option String
  | [] => none
  | c :: t =>
    match gpaAt (c :: t) with
    | some g => some (⟨g⟩ : String)
    | none => gpaSearch t

/-- The continuation \s+in\s+(.+) of the degree/field splitter, applied after a
candidate first group; returns group 2 (the space run after "in" backtracks to
leave a single space for the greedy dot when nothing else follows it). -/
def inTryAt (rest : List Char) : Option (List Char) :=
  let w := rest.takeWhile isSpaceJS
  let r1 := rest.dropWhile isSpaceJS
  if w = [] then none
  else if ciIsPrefix "in".data r1 then
    let afterIn := r1.drop 2
    let v := afterIn.takeWhile isSpaceJS
    let r2 := afterIn.dropWhile isSpaceJS
    let g2 := r2.takeWhile isDotChar
    if v = [] then none
    else if g2 ≠ [] then some g2
    else if 2 ≤ v.length then some [' ']
    else none
  else none

/-- /(.+?)\s+in\s+(.+)/i — lazy first group: split points are scanned left to
right; a line terminator restarts the first group just after it (leftmost
viable start). -/
def inSplitAux (pre : List Char) : List Char → Option (String × String)
  | [] => none
  | c :: rest =>
    if isDotChar c then
      match inTryAt rest with
      | some g2 => some ((⟨(c :: pre).reverse⟩ : String), (⟨g2⟩ : String))
      | none => inSplitAux (c :: pre) rest
    else inSplitAux [] rest

def inSplit (s : String) : Option (String × String) := inSplitAux [] s.data

/-- /[:：]\s*(.+)/ — group 1 (the text after the first viable colon). -/
def colonSplitAux : List Char → Option String
  | [] => none
  | c :: rest =>
    if c = ':' || c = '：' then
      let v := rest.takeWhile isSpaceJS
      let r := rest.dropWhile isSpaceJS
      let g := r.takeWhile isDotChar
      if g ≠ [] then some (⟨g⟩ : String)
      else if v ≠ [] then some " "
      else colonSplitAux rest
    else colonSplitAux rest

def colonSplit (s : String) : Option String := colonSplitAux s.data

/-! ## Data model (records as produced by the parser; ids/timestamps omitted) -/

structure PersonalInfo where
  name : String
  email : Option String
  phone : Option String
  location : Option String
  linkedIn : Option String
  github : Option String
  portfolio : Option String
  confidence : Nat
  deriving DecidableEq, Repr

structure Experience where
  company : String
  title : String
  location : Option String
  startDate : Option String
  endDate : Option (Option String)
  description : List String
  isCurrent : Bool
  confidence : Nat
  order : Nat
  deriving DecidableEq, Repr

structure Education where
  institution : String
  degree : String
  field : String
  startDate : String
  endDate : Option (Option String)
  gpa : Option String
  description : List String
  confidence : Nat
  order : Nat
  deriving DecidableEq, Repr

inductive SkillCategory where
  | programming : SkillCategory
  | tools : SkillCategory
  | softSkills : SkillCategory
  | language : SkillCategory
  | other : SkillCategory
  deriving DecidableEq, Repr

structure Skill where
  name : String
  category : SkillCategory
  confidence : Nat
  deriving DecidableEq, Repr

structure Project where
  name : String
  description : List String
  technologies : Option (List String)
  url : Option String
  startDate : Option String
  endDate : Option (Option String)
  confidence : Nat
  order : Nat
  deriving DecidableEq, Repr

structure ParsedResume where
  s3Key : String
  userId : Option String
  rawText : String
  personalInfo : Option PersonalInfo
  summary : Option String
  experiences : List Experience
  education : List Education
  skills : List Skill
  projects : List Project
  overallConfidence : Nat
  needsReview : Bool
  errors : List String
  warnings : List String
  deriving DecidableEq, Repr

/-- Truthiness of an optional string (undefined and the empty string are falsy). -/
def optTruthy : Option String → Bool
  | none => false
  | some s => s ≠ ""

/-- The source's defensive exp.confidence || 50 (confidence is in fact never 0). -/
def jsOr50 (n : Nat) : Nat := if n = 0 then 50 else n

/-! ## parsePersonalInfo -/

def piText (lines : List String) : String := joinSep "\n" lines

def piEmail (lines : List String) : Option String := regexFind emailPat (piText lines)

def piPhone (lines : List String) : Option String := regexFind phonePat (piText lines)

def piLinkedIn (lines : List String) : Option String := regexFind linkedInPat (piText lines)

def piGithub (lines : List String) : Option String := regexFind githubPat (piText lines)

def piPortfolio (lines : List String) : Option String := regexFind portfolioPat (piText lines)

def piLocation (lines : List String) : Option String := regexFind locationPat (piText lines)

/-- Name heuristic: first non-empty non-heading line, with email, phone and
URL substrings stripped, trimmed, accepted when 2–49 characters long. -/
def piName (lines : List String) : Option String :=
  match lines.find? (fun l => jsTrim l ≠ "" && !strStartsWith l "#") with
  | none => none
  | some l =>
    let cleaned :=
      jsTrim (regexReplaceAll urlPatCs (regexReplaceAll phoneA (regexReplaceAll emailPat (jsTrim l))))
    if cleaned ≠ "" && 1 < cleaned.length && cleaned.length < 50 then some cleaned else none

def parsePersonalInfo (lines : List String) : Option PersonalInfo :=
  if lines.isEmpty then none
  else
    let email := piEmail lines
    let phone := piPhone lines
    let linkedIn := piLinkedIn lines
    let github := piGithub lines
    let portfolio := piPortfolio lines
    let location := piLocation lines
    let name := piName lines
    let confidence :=
      50 + (if email.isSome then 10 else 0) + (if phone.isSome then 10 else 0)
        + (if linkedIn.isSome then 10 else 0) + (if github.isSome then 10 else 0)
        + (if location.isSome then 5 else 0) + (if name.isSome then 10 else 0)
    let confidence := min 100 (max 0 confidence)
    if name.isSome || email.isSome || phone.isSome then
      some { name := name.getD "", email := email, phone := phone, location := location,
             linkedIn := linkedIn, github := github, portfolio := portfolio,
             confidence := confidence }
    else none

/-! ## parseSummary -/

def parseSummary (lines : List String) : Option String :=
  if lines.isEmpty then none
  else
    let filtered := lines.filter (fun l => jsTrim l ≠ "" && !strStartsWith l "#")
    if filtered.isEmpty then none
    else some (jsTrim (joinSep " " filtered))

/-! ## Experience extraction -/

def emptyExperience : Experience :=
  { company := "", title := "", location := none, startDate := none, endDate := none,
    description := [], isCurrent := false, confidence := 50, order := 0 }

/-- One iteration of the part-classification loop of parseExperienceHeader. -/
def expHeaderStep (e : Experience) (part : String) : Experience :=
  match dateSearch expStartAtoms expEndAtoms part with
  | some (g1, g2) =>
    let e := { e with startDate := some (normalizeDate g1) }
    let e :=
      if presentTestExp g2 then { e with endDate := some none, isCurrent := true }
      else { e with endDate := some (some (normalizeDate g2)) }
    { e with confidence := jsOr50 e.confidence + 15 }
  | none =>
    if titleKeywordsTest part && e.title = "" then
      { e with title := part, confidence := jsOr50 e.confidence + 15 }
    else if e.company = "" then
      { e with company := part, confidence := jsOr50 e.confidence + 10 }
    else if !optTruthy e.location then { e with location := some part }
    else e

def parseExperienceHeader (header : String) : Experience :=
  let parts := (jsSplit (fun c => c = '|') header).map jsTrim
  let e := parts.foldl expHeaderStep emptyExperience
  let e :=
    if parts.length = 1 && e.company = "" && e.title = "" then
      let commaParts := (jsSplit (fun c => c = ',') header).map jsTrim
      if 2 ≤ commaParts.length then
        { e with company := commaParts.getD 0 "", title := commaParts.getD 1 "" }
      else { e with company := header }
    else e
  { e with confidence := min 100 (max 0 e.confidence) }

/-- The currently open record is kept only when its company is truthy. -/
def pushExp (cur : Option Experience) (bullets : List String) : List Experience :=
  match cur with
  | some e => if e.company ≠ "" then [{ e with description := bullets }] else []
  | none => []

def parseExperiencesLoop : List String → Option Experience → List String → List Experience
  | [], cur, bullets => pushExp cur bullets
  | l :: ls, cur, bullets =>
    let trimmed := jsTrim l
    if trimmed = "" then parseExperiencesLoop ls cur bullets
    else
      match h3Match trimmed with
      | some header =>
        pushExp cur bullets ++ parseExperiencesLoop ls (some (parseExperienceHeader header)) []
      | none =>
        match bulletMatch trimmed, cur with
        | some b, some e => parseExperiencesLoop ls (some e) (bullets ++ [b])
        | _, some _ => parseExperiencesLoop ls cur bullets
        | _, none =>
          let parsed := parseExperienceHeader trimmed
          if parsed.company ≠ "" || parsed.title ≠ "" then parseExperiencesLoop ls (some parsed) []
          else parseExperiencesLoop ls cur bullets

def parseExperiences (lines : List String) : List Experience :=
  if lines.isEmpty then [] else parseExperiencesLoop lines none []

/-! ## Education extraction -/

def emptyEducation : Education :=
  { institution := "", degree := "", field := "", startDate := "", endDate := some none,
    gpa := none, description := [], confidence := 50, order := 0 }

def eduHeaderStep (e : Education) (part : String) : Education :=
  match dateSearch eduStartAtoms eduEndAtoms part with
  | some (g1, g2) =>
    let e := { e with startDate := normalizeDate g1 }
    let e :=
      if presentTestEdu g2 then { e with endDate := some none }
      else { e with endDate := some (some (normalizeDate g2)) }
    { e with confidence := jsOr50 e.confidence + 15 }
  | none =>
    if degreeKeywordsTest part && e.degree = "" then
      let e :=
        match inSplit part with
        | some (d, f) => { e with degree := jsTrim d, field := jsTrim f }
        | none => { e with degree := part }
      { e with confidence := jsOr50 e.confidence + 15 }
    else
      match gpaSearch part.data with
      | some g => { e with gpa := some g }
      | none =>
        if institutionTest part && e.institution = "" then
          { e with institution := part, confidence := jsOr50 e.confidence + 10 }
        else if e.institution = "" then { e with institution := part }
        else if e.field = "" && !degreeKeywordsTest part then { e with field := part }
        else e

def parseEducationHeader (header : String) : Education :=
  let parts := (jsSplit (fun c => c = '|') header).map jsTrim
  let e := parts.foldl eduHeaderStep emptyEducation
  { e with confidence := min 100 (max 0 e.confidence) }

def pushEdu (cur : Option Education) (desc : List String) : List Education :=
  match cur with
  | some e => if e.institution ≠ "" then [{ e with description := desc }] else []
  | none => []

def parseEducationLoop : List String → Option Education → List String → List Education
  | [], cur, desc => pushEdu cur desc
  | l :: ls, cur, desc =>
    let trimmed := jsTrim l
    if trimmed = "" then parseEducationLoop ls cur desc
    else
      match h3Match trimmed with
      | some header =>
        pushEdu cur desc ++ parseEducationLoop ls (some (parseEducationHeader header)) []
      | none =>
        match bulletMatch trimmed, cur with
        | some b, some e => parseEducationLoop ls (some e) (desc ++ [b])
        | _, some _ => parseEducationLoop ls cur desc
        | _, none =>
          let parsed := parseEducationHeader trimmed
          if parsed.institution ≠ "" || parsed.degree ≠ "" then parseEducationLoop ls (some parsed) []
          else parseEducationLoop ls cur desc

def parseEducation (lines : List String) : List Education :=
  if lines.isEmpty then [] else parseEducationLoop lines none []

/-! ## Skills extraction -/

/-- Category context from a ### sub-heading of the skills section. -/
def classifySkillCategory (heading : String) : SkillCategory :=
  let cn := lowerStr heading
  if strContains cn "technical" || strContains cn "tech" then .programming
  else if strContains cn "soft" then .softSkills
  else if strContains cn "tool" then .tools
  else if strContains cn "language" then .language
  else .other

def skillNamesToSkills (cat : SkillCategory) : List String → List Skill
  | [] => []
  | n :: ns =>
    if n = "" || n.length < 2 then skillNamesToSkills cat ns
    else
      let lowerName := lowerStr n
      let category :=
        if softSkillsKeywords.any (fun k => strContains lowerName k) then SkillCategory.softSkills
        else if techKeywords.any (fun k => strContains lowerName k) then SkillCategory.programming
        else if n.data.any (fun c => c = '+' || c = '#' || c = '.' || c = '-' || c = '/')
            || (2 ≤ n.length && n.data.all isUpperAZ) then SkillCategory.programming
        else cat
      { name := n, category := category, confidence := 70 } :: skillNamesToSkills cat ns

def parseSkillsLoop : List String → SkillCategory → List Skill
  | [], _ => []
  | l :: ls, cat =>
    let trimmed := jsTrim l
    if trimmed = "" then parseSkillsLoop ls cat
    else
      match h3Match trimmed with
      | some g => parseSkillsLoop ls (classifySkillCategory g)
      | none =>
        let skillText := match bulletMatch trimmed with | some b => b | none => trimmed
        if strStartsWith skillText "#" then parseSkillsLoop ls cat
        else
          let skillNames := (jsSplit (fun c => c = ',' || c = ';') skillText).map jsTrim
          skillNamesToSkills cat skillNames ++ parseSkillsLoop ls cat

def parseSkills (lines : List String) : List Skill :=
  if lines.isEmpty then [] else parseSkillsLoop lines .other

/-! ## Project extraction -/

def emptyProject : Project :=
  { name := "", description := [], technologies := none, url := none,
    startDate := none, endDate := none, confidence := 50, order := 0 }

def projHeaderStep (pr : Project) (part : String) : Project :=
  match dateSearch projStartAtoms projEndAtoms part with
  | some (g1, g2) =>
    let pr := { pr with startDate := some (normalizeDate g1) }
    let pr :=
      if presentTestProj g2 then { pr with endDate := some none }
      else { pr with endDate := some (some (normalizeDate g2)) }
    { pr with confidence := jsOr50 pr.confidence + 15 }
  | none =>
    match regexFind urlPatCi part with
    | some u => { pr with url := some u }
    | none =>
      if pr.name = "" then { pr with name := part, confidence := jsOr50 pr.confidence + 20 }
      else pr

def parseProjectHeader (header : String) : Project :=
  let parts := (jsSplit (fun c => c = '|') header).map jsTrim
  let pr := parts.foldl projHeaderStep emptyProject
  { pr with confidence := min 100 (max 0 pr.confidence) }

def pushProj (cur : Option Project) (bullets : List String) : List Project :=
  match cur with
  | some pr => if pr.name ≠ "" then [{ pr with description := bullets }] else []
  | none => []

def parseProjectsLoop : List String → Option Project → List String → List Project
  | [], cur, bullets => pushProj cur bullets
  | l :: ls, cur, bullets =>
    let trimmed := jsTrim l
    if trimmed = "" then parseProjectsLoop ls cur bullets
    else
      match h3Match trimmed with
      | some header =>
        pushProj cur bullets ++ parseProjectsLoop ls (some (parseProjectHeader header)) []
      | none =>
        match bulletMatch trimmed, cur with
        | some b, some pr =>
          if techLineTest b then
            match colonSplit b with
            | some t =>
              let techs := (jsSplit (fun c => c = ',' || c = '，') t).map jsTrim
              parseProjectsLoop ls (some { pr with technologies := some techs }) bullets
            | none => parseProjectsLoop ls (some pr) bullets
          else parseProjectsLoop ls (some pr) (bullets ++ [b])
        | _, some _ => parseProjectsLoop ls cur bullets
        | _, none =>
          if !strStartsWith trimmed "#" then
            parseProjectsLoop ls (some (parseProjectHeader trimmed)) []
          else parseProjectsLoop ls cur bullets

def parseProjects (lines : List String) : List Project :=
  if lines.isEmpty then [] else parseProjectsLoop lines none []

/-! ## Section segmentation -/

def SECTION_KEYWORDS : List (String × String) :=
  [("personal information", "PersonalInfo"), ("contact information", "PersonalInfo"),
   ("contact details", "PersonalInfo"), ("contact", "PersonalInfo"),
   ("summary", "Summary"), ("objective", "Summary"), ("about", "Summary"),
   ("self description", "Summary"), ("profile", "Summary"),
   ("education", "Education"), ("academic", "Education"), ("degree", "Education"),
   ("experience", "Experience"), ("work experience", "Experience"),
   ("employment", "Experience"), ("professional", "Experience"),
   ("professional experience", "Experience"),
   ("skills", "Skills"), ("technical skills", "Skills"), ("competencies", "Skills"),
   ("projects", "Projects"), ("portfolio", "Projects"),
   ("certifications", "Certifications"), ("certificates", "Certifications"),
   ("licenses", "Certifications")]

/-- Record-object update sections[name].push(...content) (insertion order kept). -/
def pushSec (secs : List (String × List String)) (name : String) (content : List String) :
    List (String × List String) :=
  if secs.any (fun kv => kv.1 = name) then
    secs.map (fun kv => if kv.1 = name then (kv.1, kv.2 ++ content) else kv)
  else secs ++ [(name, content)]

def canonSection (g : String) : String :=
  let t := jsTrim g
  (SECTION_KEYWORDS.lookup (lowerStr t)).getD t

def extractSectionsLoop :
    List String → String → List String → List (String × List String) →
      List (String × List String)
  | [], curName, curContent, secs =>
    if curContent ≠ [] then pushSec secs curName curContent else secs
  | l :: ls, curName, curContent, secs =>
    match h2Match l with
    | some g =>
      let secs := if curContent ≠ [] then pushSec secs curName curContent else secs
      extractSectionsLoop ls (canonSection g) [] secs
    | none => extractSectionsLoop ls curName (curContent ++ [l]) secs

def extractSections (markdown : String) : List (String × List String) :=
  extractSectionsLoop (jsSplit (fun c => c = '\n') markdown) "Unknown" [] []

def getSection (secs : List (String × List String)) (k : String) : List String :=
  (secs.lookup k).getD []

/-! ## The Resume Assembler (buildParsedResume) -/

/-- Math.round(sum/len) on nonnegative integers: exact half-up rounding. -/
def mathRound (sum len : Nat) : Nat := (2 * sum + len) / (2 * len)

/-- The confidences array, in the push order of the source. -/
def collectConfidences (pi : Option PersonalInfo) (exps : List Experience)
    (edus : List Education) (sks : List Skill) (prs : List Project) : List Nat :=
  (match pi with | some p => [p.confidence] | none => [])
    ++ exps.map (fun e => e.confidence) ++ edus.map (fun e => e.confidence)
    ++ sks.map (fun s => s.confidence) ++ prs.map (fun p => p.confidence)

/-- list.forEach((x, i) => x.order = i). -/
def setOrdersFrom {α : Type} (set : α → Nat → α) : Nat → List α → List α
  | _, [] => []
  | i, a :: as => set a i :: setOrdersFrom set (i + 1) as

def buildParsedResume (markdown s3Key : String) (userId : Option String) : ParsedResume :=
  let sections := extractSections markdown
  let personalInfo := parsePersonalInfo (getSection sections "PersonalInfo")
  let summary := parseSummary (getSection sections "Summary")
  let experiences := parseExperiences (getSection sections "Experience")
  let education := parseEducation (getSection sections "Education")
  let skills := parseSkills (getSection sections "Skills")
  let projects := parseProjects (getSection sections "Projects")
  let confidences := collectConfidences personalInfo experiences education skills projects
  let overallConfidence :=
    if 0 < confidences.length then mathRound confidences.sum confidences.length else 30
  let experiencesOrdered := setOrdersFrom (fun e i => { e with order := i }) 0 experiences
  let educationOrdered := setOrdersFrom (fun e i => { e with order := i }) 0 education
  let projectsOrdered := setOrdersFrom (fun p i => { p with order := i }) 0 projects
  let needsReview := decide (overallConfidence < 70)
  let warnings :=
    (if personalInfo.isNone then ["无法解析个人信息"] else [])
      ++ (if experiences.isEmpty then ["未找到工作经历"] else [])
      ++ (if education.isEmpty then ["未找到教育经历"] else [])
      ++ (if skills.isEmpty then ["未找到技能信息"] else [])
  { s3Key := s3Key, userId := userId, rawText := markdown,
    personalInfo := personalInfo, summary := summary,
    experiences := experiencesOrdered, education := educationOrdered,
    skills := skills, projects := projectsOrdered,
    overallConfidence := overallConfidence, needsReview := needsReview,
    errors := [], warnings := warnings }

/-! ## generateMarkdown (the structured-resume markdown renderer) -/

/-- parseInt(·, 10) restricted to the nonnegative decimal prefixes the date
fields produce (no prefix of digits gives NaN, modelled as none). -/
def parseIntPrefix (s : String) : Option Nat :=
  let ds := s.data.takeWhile isDigitJS
  if ds = [] then none
  else some (ds.foldl (fun n c => n * 10 + (c.toNat - '0'.toNat)) 0)

def monthNames : List String :=
  ["Jan", "Feb", "Mar", "Apr", "May", "Jun", "Jul", "Aug", "Sep", "Oct", "Nov", "Dec"]

/-- formatDate of the renderer; a falsy date (undefined/null/empty) prints
Present, months[monthIndex] || '' resolves out-of-range indexes to the empty
string (monthIndex -1, from a 00 month, included). -/
def formatDate (date : Option String) : String :=
  match date with
  | none => "Present"
  | some d =>
    if d = "" then "Present"
    else
      let parts := jsSplit (fun c => c = '-') d
      if 2 ≤ parts.length then
        (match parseIntPrefix (parts.getD 1 "") with
         | none => ""
         | some n => if n = 0 then "" else monthNames.getD (n - 1) "")
          ++ " " ++ parts.getD 0 ""
      else d

/-- formatDate applied to a possibly-null, possibly-undefined end date. -/
def formatDateN (d : Option (Option String)) : String :=
  match d with
  | none => "Present"
  | some none => "Present"
  | some (some s) => formatDate (some s)

/-- Stable sort on the order field ((a, b) => a.order - b.order). -/
def insertByOrder {α : Type} (ord : α → Nat) (a : α) : List α → List α
  | [] => [a]
  | b :: bs => if ord b < ord a then b :: insertByOrder ord a bs else a :: b :: bs

def sortByOrder {α : Type} (ord : α → Nat) : List α → List α
  | [] => []
  | a :: as => insertByOrder ord a (sortByOrder ord as)

def expLines (exp : Experience) : List String :=
  let dateRange :=
    if exp.isCurrent then formatDate exp.startDate ++ " - Present"
    else formatDate exp.startDate ++ " - " ++ formatDateN exp.endDate
  ["### " ++ exp.title ++ " | " ++ exp.company
      ++ (if optTruthy exp.location then " | " ++ exp.location.getD "" else "")
      ++ " | " ++ dateRange ++ "\n"]
    ++ exp.description.map (fun b => "- " ++ b)
    ++ [""]

def eduLines (edu : Education) : List String :=
  let dateRange := formatDate (some edu.startDate) ++ " - " ++ formatDateN edu.endDate
  let degreeField := if edu.field ≠ "" then edu.degree ++ " in " ++ edu.field else edu.degree
  ["### " ++ edu.institution ++ " | " ++ degreeField
      ++ (match edu.gpa with
          | some g => if g ≠ "" then " | GPA: " ++ g else ""
          | none => "")
      ++ " | " ++ dateRange ++ "\n"]
    ++ edu.description.map (fun b => "- " ++ b)
    ++ [""]

def skillCategoryLabel : SkillCategory → String
  | .programming => "Technical Skills"
  | .tools => "Tools & Frameworks"
  | .softSkills => "Soft Skills"
  | .language => "Languages"
  | .other => "Other Skills"

def skillsBlock (skills : List Skill) : List String :=
  List.flatten
    ([SkillCategory.programming, .tools, .softSkills, .language, .other].map fun cat =>
      let ss := skills.filter (fun s => s.category = cat)
      if ss ≠ [] then
        ["### " ++ skillCategoryLabel cat ++ "\n"] ++ ss.map (fun s => "- " ++ s.name) ++ [""]
      else [])

def projLines (pr : Project) : List String :=
  let header := "### " ++ pr.name
  let header := header ++ (if optTruthy pr.url then " | " ++ pr.url.getD "" else "")
  let header :=
    if optTruthy pr.startDate then
      let h := header ++ " | " ++ formatDate pr.startDate
      match pr.endDate with
      | none => h
      | some e => h ++ " - " ++ formatDateN (some e)
    else header
  [header ++ "\n"]
    ++ (match pr.technologies with
        | some ts => if ts ≠ [] then ["**Technologies:** " ++ joinSep ", " ts] else []
        | none => [])
    ++ pr.description.map (fun b => "- " ++ b)
    ++ [""]

def generateMarkdown (data : ParsedResume) : String :=
  let lines :=
    (match data.personalInfo with
     | some pi =>
       ["## Personal Information\n"]
         ++ (if pi.name ≠ "" then [pi.name] else [])
         ++ (let contactParts :=
               (if optTruthy pi.email then [pi.email.getD ""] else [])
                 ++ (if optTruthy pi.phone then [pi.phone.getD ""] else [])
                 ++ (if optTruthy pi.location then [pi.location.getD ""] else [])
             if contactParts ≠ [] then [joinSep " | " contactParts] else [])
         ++ (let linkParts :=
               (if optTruthy pi.linkedIn then [pi.linkedIn.getD ""] else [])
                 ++ (if optTruthy pi.github then [pi.github.getD ""] else [])
                 ++ (if optTruthy pi.portfolio then [pi.portfolio.getD ""] else [])
             if linkParts ≠ [] then [joinSep " | " linkParts] else [])
         ++ [""]
     | none => [])
      ++ (match data.summary with
          | some sm => if sm ≠ "" then ["## Summary\n", sm, ""] else []
          | none => [])
      ++ (if data.experiences ≠ [] then
            ["## Experience\n"]
              ++ List.flatten ((sortByOrder (fun e => e.order) data.experiences).map expLines)
          else [])
      ++ (if data.education ≠ [] then
            ["## Education\n"]
              ++ List.flatten ((sortByOrder (fun e => e.order) data.education).map eduLines)
          else [])
      ++ (if data.skills ≠ [] then ["## Skills\n"] ++ skillsBlock data.skills else [])
      ++ (if data.projects ≠ [] then
            ["## Projects\n"]
              ++ List.flatten ((sortByOrder (fun p => p.order) data.projects).map projLines)
          else [])
  joinSep "\n" lines

/-! ## The glyph-layout reconstruction loop of extractPdfText -/

/-- One positioned text fragment of a PDF page (str, transform[4], transform[5]). -/
structure Frag where
  str : String
  x : ℚ
  y : ℚ

/-- /^[•◦▪■▸▹◾\-\*]$|^\d+[.)]$|^[a-z][.)]$/ . -/
def isBulletStr (s : String) : Bool :=
  (match s.data with
   | [c] =>
     c = '•' || c = '◦' || c = '▪' || c = '■' || c = '▸' || c = '▹' || c = '◾' ||
       c = '-' || c = '*'
   | _ => false)
    || (match s.data.span isDigitJS with
        | (ds, [p]) => ds ≠ [] && (p = '.' || p = ')')
        | _ => false)
    || (match s.data with
        | [c, p] => isLowerAZ c && (p = '.' || p = ')')
        | _ => false)

def strEndsWith (s suffix : String) : Bool := suffix.data.isSuffixOf s.data

/-- One iteration of the fragment loop: infer a line break on a vertical jump,
an inter-word space on a horizontal gap, replace bullet glyphs by the literal
[BULLET] tag, and advance the estimated pen position (5 units per character). -/
def pageStep (state : String × ℚ × ℚ) (item : Frag) : String × ℚ × ℚ :=
  let pageText := state.1
  let lastX := state.2.1
  let lastY := state.2.2
  let isBullet := isBulletStr item.str
  let pageText :=
    if |item.y - lastY| > 5 then
      (if pageText ≠ "" && !strEndsWith pageText "\n" then pageText ++ "\n" else pageText)
    else if item.x - lastX > 3 && pageText ≠ "" && !strEndsWith pageText " " && !isBullet then
      pageText ++ " "
    else pageText
  let pageText :=
    if isBullet then
      (if pageText ≠ "" && !strEndsWith pageText "\n" then pageText ++ "\n" else pageText)
        ++ "[BULLET] "
    else pageText ++ item.str
  (pageText, item.x + (item.str.length : ℚ) * 5, item.y)

def reconstructPage (items : List Frag) : String :=
  (items.foldl pageStep ("", 0, 0)).1

/-! ## Helper lemmas about order assignment -/

theorem length_setOrdersFrom {α : Type} (set : α → Nat → α) :
    ∀ (i : Nat) (l : List α), (setOrdersFrom set i l).length = l.length := by
  intro i l
  induction l generalizing i with
  | nil => rfl
  | cons a as ih => simp [setOrdersFrom, ih]

theorem map_setOrdersFrom {α β : Type} (set : α → Nat → α) (f : α → β)
    (hf : ∀ a i, f (set a i) = f a) :
    ∀ (i : Nat) (l : List α), (setOrdersFrom set i l).map f = l.map f := by
  intro i l
  induction l generalizing i with
  | nil => rfl
  | cons a as ih => simp [setOrdersFrom, ih, hf]

theorem map_ord_setOrdersFrom {α : Type} (set : α → Nat → α) (ord : α → Nat)
    (hf : ∀ a i, ord (set a i) = i) :
    ∀ (i : Nat) (l : List α), (setOrdersFrom set i l).map ord = List.range' i l.length := by
  intro i l
  induction l generalizing i with
  | nil => rfl
  | cons a as ih => simp [setOrdersFrom, List.range', ih, hf]

theorem collectConfidences_ordered (pi : Option PersonalInfo) (exps : List Experience)
    (edus : List Education) (sks : List Skill) (prs : List Project) :
    collectConfidences pi (setOrdersFrom (fun e i => { e with order := i }) 0 exps)
        (setOrdersFrom (fun e i => { e with order := i }) 0 edus) sks
        (setOrdersFrom (fun p i => { p with order := i }) 0 prs)
      = collectConfidences pi exps edus sks prs := by
  simp only [collectConfidences,
    map_setOrdersFrom (fun (e : Experience) i => { e with order := i })
      (fun e => e.confidence) (fun a i => rfl),
    map_setOrdersFrom (fun (e : Education) i => { e with order := i })
      (fun e => e.confidence) (fun a i => rfl),
    map_setOrdersFrom (fun (p : Project) i => { p with order := i })
      (fun p => p.confidence) (fun a i => rfl)]

/-! ## C1 -/

/-- The confidence scores of all records of an assembled resume, in the
source's collection order: the personal-info record once, then each
experience, education, skill and project record once. -/
def recordConfidences (r : ParsedResume) : List Nat :=
  collectConfidences r.personalInfo r.experiences r.education r.skills r.projects

/-- C1: for every markdown input, buildParsedResume returns overallConfidence
equal to the half-up-rounded unweighted arithmetic mean of the confidence
scores of all extracted records (personal info once, each
experience/education/skill/project record once), 30 when no record was
extracted, and needsReview holds exactly when overallConfidence < 70. -/
theorem c1_overallConfidence_mean (md k : String) (u : Option String) :
    (buildParsedResume md k u).overallConfidence
        = (if recordConfidences (buildParsedResume md k u) = [] then 30
           else
             mathRound (recordConfidences (buildParsedResume md k u)).sum
               (recordConfidences (buildParsedResume md k u)).length)
      ∧ ((buildParsedResume md k u).needsReview = true
           ↔ (buildParsedResume md k u).overallConfidence < 70) := by
  have hconf : recordConfidences (buildParsedResume md k u)
      = collectConfidences (parsePersonalInfo (getSection (extractSections md) "PersonalInfo"))
          (parseExperiences (getSection (extractSections md) "Experience"))
          (parseEducation (getSection (extractSections md) "Education"))
          (parseSkills (getSection (extractSections md) "Skills"))
          (parseProjects (getSection (extractSections md) "Projects")) := by
    simp only [recordConfidences, buildParsedResume]
    exact collectConfidences_ordered _ _ _ _ _
  constructor
  · rw [hconf]
    simp only [buildParsedResume]
    cases h : collectConfidences (parsePersonalInfo (getSection (extractSections md) "PersonalInfo"))
        (parseExperiences (getSection (extractSections md) "Experience"))
        (parseEducation (getSection (extractSections md) "Education"))
        (parseSkills (getSection (extractSections md) "Skills"))
        (parseProjects (getSection (extractSections md) "Projects")) with
    | nil => simp [h]
    | cons a as => simp [h]
  · simp only [buildParsedResume]
    simp

/-! ## C2 -/

/-- C2: in every assembled resume the order fields of the experiences,
education and projects lists are exactly 0, 1, …, n-1 in list position order
(no gaps, no duplicates). -/
theorem c2_order_fields_contiguous (md k : String) (u : Option String) :
    (buildParsedResume md k u).experiences.map (fun e => e.order)
        = List.range (buildParsedResume md k u).experiences.length
      ∧ (buildParsedResume md k u).education.map (fun e => e.order)
          = List.range (buildParsedResume md k u).education.length
      ∧ (buildParsedResume md k u).projects.map (fun p => p.order)
          = List.range (buildParsedResume md k u).projects.length := by
  refine ⟨?_, ?_, ?_⟩ <;>
    simp only [buildParsedResume] <;>
    rw [List.range_eq_range', length_setOrdersFrom] <;>
    exact map_ord_setOrdersFrom _ _ (fun a i => rfl) 0 _

/-! ## C4 -/

/-- C4: the experience header
"Software Engineer | Acme Corp | San Francisco, CA | Jan 2021 - Present"
parses to title "Software Engineer", company "Acme Corp", location
"San Francisco, CA", startDate "2021-01-01", a null endDate and isCurrent. -/
theorem c4_experience_header_scenario :
    (parseExperienceHeader
        "Software Engineer | Acme Corp | San Francisco, CA | Jan 2021 - Present").title
        = "Software Engineer"
      ∧ (parseExperienceHeader
          "Software Engineer | Acme Corp | San Francisco, CA | Jan 2021 - Present").company
          = "Acme Corp"
      ∧ (parseExperienceHeader
          "Software Engineer | Acme Corp | San Francisco, CA | Jan 2021 - Present").location
          = some "San Francisco, CA"
      ∧ (parseExperienceHeader
          "Software Engineer | Acme Corp | San Francisco, CA | Jan 2021 - Present").startDate
          = some "2021-01-01"
      ∧ (parseExperienceHeader
          "Software Engineer | Acme Corp | San Francisco, CA | Jan 2021 - Present").endDate
          = some none
      ∧ (parseExperienceHeader
          "Software Engineer | Acme Corp | San Francisco, CA | Jan 2021 - Present").isCurrent
          = true := by
  decide

/-! ## C10 -/

theorem skillNamesToSkills_min2 (cat : SkillCategory) :
    ∀ (ns : List String) (s : Skill), s ∈ skillNamesToSkills cat ns → 2 ≤ s.name.length := by
  intro ns
  induction ns with
  | nil => intro s hs; simp [skillNamesToSkills] at hs
  | cons n t ih =>
    intro s hs
    simp only [skillNamesToSkills] at hs
    split at hs
    · exact ih _ hs
    · next h =>
      simp only [Bool.or_eq_true, decide_eq_true_eq, not_or] at h
      rcases List.mem_cons.mp hs with h1 | h2
      · subst h1
        show 2 ≤ n.length
        omega
      · exact ih _ h2

theorem parseSkillsLoop_min2 :
    ∀ (lines : List String) (cat : SkillCategory) (s : Skill),
      s ∈ parseSkillsLoop lines cat → 2 ≤ s.name.length := by
  intro lines
  induction lines with
  | nil => intro cat s hs; simp [parseSkillsLoop] at hs
  | cons l t ih =>
    intro cat s hs
    simp only [parseSkillsLoop] at hs
    split at hs
    · exact ih _ _ hs
    · split at hs
      · exact ih _ _ hs
      · split at hs
        · exact ih _ _ hs
        · rcases List.mem_append.mp hs with h1 | h2
          · exact skillNamesToSkills_min2 _ _ _ h1
          · exact ih _ _ h2

/-- C10: every skill returned by parseSkills has a name of at least two
characters: after splitting skill lines on commas/semicolons and trimming,
empty and single-character tokens (such as "C" or "R") are silently dropped
and yield no record. -/
theorem c10_skill_name_length (lines : List String) :
    (∀ s ∈ parseSkills lines, 2 ≤ s.name.length) ∧ parseSkills ["C, R"] = [] := by
  constructor
  · intro s hs
    simp only [parseSkills] at hs
    split at hs
    · simp at hs
    · exact parseSkillsLoop_min2 _ _ _ hs
  · decide

/-- Witness for C10 at the concrete section line "Go". -/
theorem c10_skill_name_length_witness :
    2 ≤ (Skill.mk "Go" SkillCategory.programming 70).name.length :=
  (c10_skill_name_length ["Go"]).1 (Skill.mk "Go" SkillCategory.programming 70) (by decide)

/-! ## C5 -/

/-- Counterexample to C5 as stated: a parsed project with a technologies list
renders as a **Technologies:** line, which the project extractor does not
recognize (it is neither a ### header nor a bullet), so re-running the
pipeline on the emitted markdown loses the technologies. -/
theorem c5_counterexample_roundtrip_drops_technologies :
    (buildParsedResume "## Projects\n### MyApp\n- Tech: React, Node" "k" none).projects.map
        (fun p => p.technologies) = [some ["React", "Node"]]
      ∧ (buildParsedResume
            (generateMarkdown
              (buildParsedResume "## Projects\n### MyApp\n- Tech: React, Node" "k" none))
            "k" none).projects.map (fun p => p.technologies) = [none] := by
  decide

/-- The markdown of a full single-record-per-section resume used for the
amended C5 round-trip statement. -/
def roundtripResumeMd : String :=
  "## Personal Information\nJohn Doe\njohn@example.com | (555) 123-4567\n## Summary\nSeasoned engineer.\n## Experience\n### Software Engineer | Acme Corp | Jan 2021 - Present\n- Built tools\n## Education\n### MIT | Bachelor of Science in Computer Science | 2015 - 2019\n- Deans list\n## Skills\nPython, AWS, Leadership\n## Projects\n### MyApp\n- Built a tool"

/-- Amended C5: round-trip stability holds on technologies-free resumes — on
this full resume (personal info, summary, experience, education, skills and a
project), re-running the Segmenter and Extractors on the Assembler's own
emitted markdown reproduces every structured field (ids/timestamps are not
modelled); it fails in general because project technologies are dropped. -/
theorem c5_amended_roundtrip_stable_without_technologies :
    (buildParsedResume (generateMarkdown (buildParsedResume roundtripResumeMd "k" none)) "k"
          none).personalInfo
        = (buildParsedResume roundtripResumeMd "k" none).personalInfo
      ∧ (buildParsedResume (generateMarkdown (buildParsedResume roundtripResumeMd "k" none)) "k"
            none).summary
          = (buildParsedResume roundtripResumeMd "k" none).summary
      ∧ (buildParsedResume (generateMarkdown (buildParsedResume roundtripResumeMd "k" none)) "k"
            none).experiences
          = (buildParsedResume roundtripResumeMd "k" none).experiences
      ∧ (buildParsedResume (generateMarkdown (buildParsedResume roundtripResumeMd "k" none)) "k"
            none).education
          = (buildParsedResume roundtripResumeMd "k" none).education
      ∧ (buildParsedResume (generateMarkdown (buildParsedResume roundtripResumeMd "k" none)) "k"
            none).skills
          = (buildParsedResume roundtripResumeMd "k" none).skills
      ∧ (buildParsedResume (generateMarkdown (buildParsedResume roundtripResumeMd "k" none)) "k"
            none).projects
          = (buildParsedResume roundtripResumeMd "k" none).projects := by
  decide

/-! ## C6 -/

/-- Counterexample to C6 as stated: a content line before the first heading is
stored by extractSections under the key "Unknown" (which no extractor reads),
not in a "Summary" section, and the assembled resume has no summary. -/
theorem c6_counterexample_preheading_not_summary :
    (extractSections "John\n## Skills\nPython").lookup "Summary" = none
      ∧ (extractSections "John\n## Skills\nPython").lookup "Unknown" = some ["John"]
      ∧ (buildParsedResume "John\n## Skills\nPython" "k" none).summary = none := by
  decide

/-! ## C7 -/

/-- Counterexample to C7 as stated: the ### record "Software Engineer, Acme"
parses to a genuine record (its header matched the title keywords), but its
company is empty (the comma fallback is skipped because a title was set), so
the record and its bullet are silently dropped — the extractor returns no
record and has no Unrecognized bucket. -/
theorem c7_counterexample_record_dropped :
    parseExperiences ["### Software Engineer, Acme", "- X"] = []
      ∧ (parseExperienceHeader "Software Engineer, Acme").title = "Software Engineer, Acme" := by
  decide

theorem pushExp_company (cur : Option Experience) (bullets : List String) (e : Experience)
    (he : e ∈ pushExp cur bullets) : e.company ≠ "" := by
  match cur with
  | none => simp [pushExp] at he
  | some e0 =>
    simp only [pushExp] at he
    split at he
    · next h =>
      rcases List.mem_singleton.mp he with rfl
      simpa using h
    · simp at he

theorem parseExperiencesLoop_company :
    ∀ (ls : List String) (cur : Option Experience) (bullets : List String) (e : Experience),
      e ∈ parseExperiencesLoop ls cur bullets → e.company ≠ "" := by
  intro ls
  induction ls with
  | nil =>
    intro cur bullets e he
    simp only [parseExperiencesLoop] at he
    exact pushExp_company _ _ _ he
  | cons l t ih =>
    intro cur bullets e he
    simp only [parseExperiencesLoop] at he
    split at he
    · exact ih _ _ _ he
    · split at he
      · rcases List.mem_append.mp he with h1 | h2
        · exact pushExp_company _ _ _ h1
        · exact ih _ _ _ h2
      · split at he
        · exact ih _ _ _ he
        · exact ih _ _ _ he
        · split at he
          · exact ih _ _ _ he
          · exact ih _ _ _ he

theorem pushEdu_institution (cur : Option Education) (desc : List String) (e : Education)
    (he : e ∈ pushEdu cur desc) : e.institution ≠ "" := by
  match cur with
  | none => simp [pushEdu] at he
  | some e0 =>
    simp only [pushEdu] at he
    split at he
    · next h =>
      rcases List.mem_singleton.mp he with rfl
      simpa using h
    · simp at he

theorem parseEducationLoop_institution :
    ∀ (ls : List String) (cur : Option Education) (desc : List String) (e : Education),
      e ∈ parseEducationLoop ls cur desc → e.institution ≠ "" := by
  intro ls
  induction ls with
  | nil =>
    intro cur desc e he
    simp only [parseEducationLoop] at he
    exact pushEdu_institution _ _ _ he
  | cons l t ih =>
    intro cur desc e he
    simp only [parseEducationLoop] at he
    split at he
    · exact ih _ _ _ he
    · split at he
      · rcases List.mem_append.mp he with h1 | h2
        · exact pushEdu_institution _ _ _ h1
        · exact ih _ _ _ h2
      · split at he
        · exact ih _ _ _ he
        · exact ih _ _ _ he
        · split at he
          · exact ih _ _ _ he
          · exact ih _ _ _ he

theorem pushProj_name (cur : Option Project) (bullets : List String) (p : Project)
    (hp : p ∈ pushProj cur bullets) : p.name ≠ "" := by
  match cur with
  | none => simp [pushProj] at hp
  | some p0 =>
    simp only [pushProj] at hp
    split at hp
    · next h =>
      rcases List.mem_singleton.mp hp with rfl
      simpa using h
    · simp at hp

theorem parseProjectsLoop_name :
    ∀ (ls : List String) (cur : Option Project) (bullets : List String) (p : Project),
      p ∈ parseProjectsLoop ls cur bullets → p.name ≠ "" := by
  intro ls
  induction ls with
  | nil =>
    intro cur bullets p hp
    simp only [parseProjectsLoop] at hp
    exact pushProj_name _ _ _ hp
  | cons l t ih =>
    intro cur bullets p hp
    simp only [parseProjectsLoop] at hp
    split at hp
    · exact ih _ _ _ hp
    · split at hp
      · rcases List.mem_append.mp hp with h1 | h2
        · exact pushProj_name _ _ _ h1
        · exact ih _ _ _ h2
      · split at hp
        · split at hp
          · split at hp
            · exact ih _ _ _ hp
            · exact ih _ _ _ hp
          · exact ih _ _ _ hp
        · exact ih _ _ _ hp
        · split at hp
          · exact ih _ _ _ hp
          · exact ih _ _ _ hp

/-- Amended C7: an experience/education/project record opened by a ###
sub-heading is kept only when its parsed header has a truthy key field
(company / institution / name); otherwise the record and its bullets are
silently dropped (there is no Unrecognized bucket in these extractors).
Correspondingly, every returned record has a nonempty key field. -/
theorem c7_amended_kept_records_have_truthy_key (lines : List String) :
    (∀ e ∈ parseExperiences lines, e.company ≠ "")
      ∧ (∀ e ∈ parseEducation lines, e.institution ≠ "")
      ∧ (∀ p ∈ parseProjects lines, p.name ≠ "") := by
  refine ⟨?_, ?_, ?_⟩
  · intro e he
    simp only [parseExperiences] at he
    split at he
    · simp at he
    · exact parseExperiencesLoop_company _ _ _ _ he
  · intro e he
    simp only [parseEducation] at he
    split at he
    · simp at he
    · exact parseEducationLoop_institution _ _ _ _ he
  · intro p hp
    simp only [parseProjects] at hp
    split at hp
    · simp at hp
    · exact parseProjectsLoop_name _ _ _ _ hp

/-- Witness for the amended C7 at concrete one-record sections. -/
theorem c7_amended_kept_records_witness :
    (Experience.mk "Acme" "Engineer" none none none [] false 75 0).company ≠ ""
      ∧ (Education.mk "MIT University" "" "" "" (some none) none [] 60 0).institution ≠ ""
      ∧ (Project.mk "MyApp" [] none none none none 70 0).name ≠ "" :=
  ⟨(c7_amended_kept_records_have_truthy_key ["### Engineer | Acme"]).1 _ (by decide),
   (c7_amended_kept_records_have_truthy_key ["### MIT University"]).2.1 _ (by decide),
   (c7_amended_kept_records_have_truthy_key ["### MyApp"]).2.2 _ (by decide)⟩

/-! ## C8 -/

/-- Counterexample to C8 as stated: on the single line "John Smith" only the
name is found among {email, phone, linkedIn, github, name}, so the claimed
formula gives 50 + 10 = 60; the code also matches the location heuristic on
"John Smith" and adds +5, returning confidence 65. -/
theorem c8_counterexample_location_bonus :
    parsePersonalInfo ["John Smith"]
        = some { name := "John Smith", email := none, phone := none,
                 location := some "John Smith", linkedIn := none, github := none,
                 portfolio := none, confidence := 65 }
      ∧ (65 : Nat) ≠ 50 + 10 := by
  refine ⟨by decide, by decide⟩

/-- Amended C8: parsePersonalInfo returns null exactly when none of name,
email and phone was found, and otherwise a record whose confidence is 50,
plus 10 for each of email, phone, linkedIn, github and name found, plus 5
when the location heuristic matched, clamped to [0, 100]. -/
theorem c8_amended_personal_info_confidence (lines : List String) :
    (parsePersonalInfo lines = none
        ↔ piName lines = none ∧ piEmail lines = none ∧ piPhone lines = none)
      ∧ ∀ info, parsePersonalInfo lines = some info →
          info.confidence
            = min 100 (max 0 (50 + (if (piEmail lines).isSome then 10 else 0)
                + (if (piPhone lines).isSome then 10 else 0)
                + (if (piLinkedIn lines).isSome then 10 else 0)
                + (if (piGithub lines).isSome then 10 else 0)
                + (if (piLocation lines).isSome then 5 else 0)
                + (if (piName lines).isSome then 10 else 0))) := by
  cases hb : lines.isEmpty with
  | true =>
    have hnil : lines = [] := List.isEmpty_iff.mp hb
    subst hnil
    refine ⟨?_, ?_⟩
    · constructor
      · intro _
        refine ⟨rfl, by decide, by decide⟩
      · intro _
        decide
    · intro info h
      simp [parsePersonalInfo] at h
  | false =>
    simp only [parsePersonalInfo, hb, Bool.false_eq_true, if_false]
    constructor
    · constructor
      · intro h
        split at h
        · exact absurd h (by simp)
        · next hcond =>
          simp only [Bool.or_eq_true, Option.isSome_iff_ne_none, not_or] at hcond
          push_neg at hcond
          exact ⟨hcond.1.1, hcond.1.2, hcond.2⟩
      · intro ⟨h1, h2, h3⟩
        split
        · next hcond =>
          simp [Option.isSome_iff_ne_none, h1, h2, h3] at hcond
        · rfl
    · intro info h
      split at h
      · cases h
        rfl
      · exact absurd h (by simp)

/-- Witness for the amended C8 at the concrete line "John Smith". -/
theorem c8_amended_personal_info_confidence_witness :
    (PersonalInfo.mk "John Smith" none none (some "John Smith") none none none 65).confidence
      = min 100 (max 0 (50 + (if (piEmail ["John Smith"]).isSome then 10 else 0)
          + (if (piPhone ["John Smith"]).isSome then 10 else 0)
          + (if (piLinkedIn ["John Smith"]).isSome then 10 else 0)
          + (if (piGithub ["John Smith"]).isSome then 10 else 0)
          + (if (piLocation ["John Smith"]).isSome then 5 else 0)
          + (if (piName ["John Smith"]).isSome then 10 else 0))) :=
  (c8_amended_personal_info_confidence ["John Smith"]).2
    (PersonalInfo.mk "John Smith" none none (some "John Smith") none none none 65) (by decide)

/-! ## C9 -/

/-- C9: the fragment sequence •, Built, a, tool on one line (equal y
coordinates, each word preceded by a horizontal gap above the 3-unit
word-spacing threshold, widths estimated at 5 units per character)
reconstructs to "[BULLET] Built a tool": the bullet glyph is discarded and
replaced by the literal [BULLET] tag followed by the spaced words. -/
theorem c9_bullet_line_reconstruction (x1 x2 x3 x4 y : ℚ)
    (hg2 : x2 - (x1 + 5) > 3) (hg3 : x3 - (x2 + 25) > 3) (hg4 : x4 - (x3 + 5) > 3) :
    reconstructPage [⟨"•", x1, y⟩, ⟨"Built", x2, y⟩, ⟨"a", x3, y⟩, ⟨"tool", x4, y⟩]
      = "[BULLET] Built a tool" := by
  have hy : ¬(|y - y| > (5 : ℚ)) := by simp
  have hx2 : (3 : ℚ) < x2 - (x1 + 1 * 5) := by linarith
  clear hx2
  have h3' : x3 - (x2 + 5 * 5) > 3 := by linarith
  have h4' : x4 - (x3 + 1 * 5) > 3 := by linarith
  by_cases hy0 : |y - (0 : ℚ)| > 5 <;>
    simp [reconstructPage, List.foldl, pageStep, hy0, h3', h4',
      show isBulletStr "•" = true from by decide,
      show isBulletStr "Built" = false from by decide,
      show isBulletStr "a" = false from by decide,
      show isBulletStr "tool" = false from by decide,
      show ("•" : String).length = 1 from by decide,
      show ("Built" : String).length = 5 from by decide,
      show ("a" : String).length = 1 from by decide,
      show ((5 : ℚ) < 0) = False from by norm_num,
      show strEndsWith "[BULLET] " " " = true from by decide,
      show strEndsWith "[BULLET] " "\n" = false from by decide,
      show strEndsWith "[BULLET] Built" " " = false from by decide,
      show strEndsWith "[BULLET] Built" "\n" = false from by decide,
      show strEndsWith "[BULLET] Built " " " = true from by decide,
      show strEndsWith "[BULLET] Built " "\n" = false from by decide,
      show strEndsWith "[BULLET] Built a" " " = false from by decide,
      show strEndsWith "[BULLET] Built a" "\n" = false from by decide,
      show strEndsWith "[BULLET] Built a " " " = true from by decide,
      show strEndsWith "[BULLET] Built a " "\n" = false from by decide,
      Nat.cast_one, Nat.cast_ofNat, hy] <;>
    rw [if_pos (show (3 : ℚ) < x4 - (x3 + 5) from by linarith)] <;>
    decide

/-- Witness for C9 at concrete coordinates. -/
theorem c9_bullet_line_reconstruction_witness :
    reconstructPage [⟨"•", 0, 700⟩, ⟨"Built", 20, 700⟩, ⟨"a", 50, 700⟩, ⟨"tool", 60, 700⟩]
      = "[BULLET] Built a tool" :=
  c9_bullet_line_reconstruction 0 20 50 60 700 (by norm_num) (by norm_num) (by norm_num)

/-! ## C6, amended: where pre-heading content actually goes -/

/-- The content lines of a markdown input that precede its first ## heading. -/
def preHeadingLines (md : String) : List String :=
  (jsSplit (fun c => c = '\n') md).takeWhile (fun l => (h2Match l).isNone)

theorem lookup_map_update (name k : String) (content : List String) :
    ∀ (secs : List (String × List String)) (v : List String),
      secs.lookup k = some v →
      (secs.map fun kv => if kv.1 = name then (kv.1, kv.2 ++ content) else kv).lookup k
        = some (if k = name then v ++ content else v) := by
  intro secs
  induction secs with
  | nil => intro v h; simp at h
  | cons p t ih =>
    obtain ⟨a, b⟩ := p
    intro v h
    by_cases hn : a = name
    · rw [List.map_cons]
      have hhead : (if (a, b).1 = name then ((a, b).1, (a, b).2 ++ content) else (a, b))
          = (a, b ++ content) := by simp [hn]
      rw [hhead]
      by_cases hk : (k == a) = true
      · have hkk : k = a := beq_iff_eq.mp hk
        simp only [List.lookup, hk] at h ⊢
        cases h
        simp [hkk, hn]
      · have hb : (k == a) = false := by simpa using hk
        simp only [List.lookup, hb] at h ⊢
        exact ih v h
    · rw [List.map_cons]
      have hhead : (if (a, b).1 = name then ((a, b).1, (a, b).2 ++ content) else (a, b))
          = (a, b) := by simp [hn]
      rw [hhead]
      by_cases hk : (k == a) = true
      · simp only [List.lookup, hk] at h ⊢
        cases h
        have hkn : ¬(k = name) := fun hkn => hn ((beq_iff_eq.mp hk).symm.trans hkn)
        simp [hkn]
      · have hb : (k == a) = false := by simpa using hk
        simp only [List.lookup, hb] at h ⊢
        exact ih v h

theorem lookup_append_left (k : String) :
    ∀ (secs l2 : List (String × List String)) (v : List String),
      secs.lookup k = some v → (secs ++ l2).lookup k = some v := by
  intro secs
  induction secs with
  | nil => intro l2 v h; simp at h
  | cons p t ih =>
    intro l2 v h
    by_cases hk : (k == p.1) = true
    · simp only [List.lookup, hk] at h
      simp [List.lookup, hk, h]
    · have hb : (k == p.1) = false := by simpa using hk
      simp only [List.lookup, hb] at h
      simpa [List.lookup, hb] using ih l2 v h

theorem lookup_pushSec (secs : List (String × List String)) (name k : String)
    (content v : List String) (h : secs.lookup k = some v) :
    ∃ r, (pushSec secs name content).lookup k = some (v ++ r) := by
  unfold pushSec
  split
  · by_cases hk : k = name
    · exact ⟨content, by rw [lookup_map_update name k content secs v h, if_pos hk]⟩
    · exact ⟨[], by rw [lookup_map_update name k content secs v h, if_neg hk]; simp⟩
  · exact ⟨[], by rw [lookup_append_left k secs _ v h]; simp⟩

theorem lookup_extractSectionsLoop :
    ∀ (ls : List String) (curName : String) (curContent : List String)
      (secs : List (String × List String)) (k : String) (v : List String),
      secs.lookup k = some v →
      ∃ r, (extractSectionsLoop ls curName curContent secs).lookup k = some (v ++ r) := by
  intro ls
  induction ls with
  | nil =>
    intro curName curContent secs k v h
    simp only [extractSectionsLoop]
    split
    · exact lookup_pushSec secs curName k curContent v h
    · exact ⟨[], by simp [h]⟩
  | cons l t ih =>
    intro curName curContent secs k v h
    simp only [extractSectionsLoop]
    split
    · split
      · obtain ⟨r1, h1⟩ := lookup_pushSec secs curName k curContent v h
        obtain ⟨r2, h2⟩ := ih _ [] _ k (v ++ r1) h1
        exact ⟨r1 ++ r2, by rw [h2, List.append_assoc]⟩
      · exact ih _ [] _ k v h
    · exact ih _ _ _ k v h

theorem extractSectionsLoop_skip_content :
    ∀ (pre : List String), (∀ l ∈ pre, h2Match l = none) →
      ∀ (ls : List String) (curName : String) (acc : List String)
        (secs : List (String × List String)),
        extractSectionsLoop (pre ++ ls) curName acc secs
          = extractSectionsLoop ls curName (acc ++ pre) secs := by
  intro pre
  induction pre with
  | nil => intro _ ls curName acc secs; simp
  | cons p t ih =>
    intro hpre ls curName acc secs
    have hp : h2Match p = none := hpre p (List.mem_cons_self p t)
    have ht : ∀ l ∈ t, h2Match l = none := fun l hl => hpre l (List.mem_cons_of_mem p hl)
    simp only [List.cons_append, extractSectionsLoop, hp, List.append_eq]
    rw [ih ht ls curName (acc ++ [p]) secs]
    congr 1
    simp

theorem dropWhile_head_false {α : Type} (p : α → Bool) :
    ∀ (l : List α) (a : α) (t : List α), l.dropWhile p = a :: t → p a = false := by
  intro l
  induction l with
  | nil => intro a t h; simp [List.dropWhile] at h
  | cons x xs ih =>
    intro a t h
    by_cases hx : p x = true
    · rw [List.dropWhile_cons_of_pos hx] at h
      exact ih _ _ h
    · rw [List.dropWhile_cons_of_neg hx] at h
      cases h
      simpa using hx

/-- Amended C6: content lines before the first ## heading are accumulated by
the markdown Section Segmenter (extractSections) under the "Unknown" key — a
bucket no downstream extractor reads — rather than into a "Summary" section. -/
theorem c6_amended_preheading_under_Unknown (md : String) (h : preHeadingLines md ≠ []) :
    ∃ rest, (extractSections md).lookup "Unknown" = some (preHeadingLines md ++ rest) := by
  unfold extractSections
  set lines := jsSplit (fun c => c = '\n') md with hlines
  have hpre : ∀ l ∈ preHeadingLines md, h2Match l = none := by
    intro l hl
    have := List.mem_takeWhile_imp hl
    simpa [Option.isNone_iff_eq_none] using this
  have hsplit : lines = preHeadingLines md ++ lines.dropWhile (fun l => (h2Match l).isNone) := by
    rw [preHeadingLines, ← hlines]
    exact (List.takeWhile_append_dropWhile (fun l => (h2Match l).isNone) lines).symm
  rw [hsplit, extractSectionsLoop_skip_content (preHeadingLines md) hpre _ _ [] []]
  cases hd : lines.dropWhile (fun l => (h2Match l).isNone) with
  | nil =>
    refine ⟨[], ?_⟩
    simp only [extractSectionsLoop, List.nil_append]
    rw [if_pos h]
    simp [pushSec, List.lookup]
  | cons d t =>
    have hdh : (fun l => (h2Match l).isNone) d = false := dropWhile_head_false _ lines d t hd
    obtain ⟨g, hg⟩ : ∃ g, h2Match d = some g := by
      have hdh2 : (h2Match d).isNone = false := by simpa using hdh
      cases hm : h2Match d with
      | none => rw [hm] at hdh2; simp at hdh2
      | some g => exact ⟨g, rfl⟩
    simp only [extractSectionsLoop, hg, List.nil_append]
    rw [if_pos h]
    have base : (pushSec [] "Unknown" (preHeadingLines md)).lookup "Unknown"
        = some (preHeadingLines md) := by
      simp [pushSec, List.lookup]
    exact lookup_extractSectionsLoop t _ [] _ "Unknown" (preHeadingLines md) base

/-- Witness for the amended C6 at a concrete document. -/
theorem c6_amended_preheading_under_Unknown_witness :
    ∃ rest, (extractSections "John\n## Skills\nPython").lookup "Unknown"
      = some (preHeadingLines "John\n## Skills\nPython" ++ rest) :=
  c6_amended_preheading_under_Unknown "John\n## Skills\nPython" (by decide)

/-! ## C3: normalizeDate on the three supported shapes -/

/-- ASCII letter (the alphabet of the month-name table keys). -/
def isAsciiAlpha (c : Char) : Bool := isLowerAZ c || isUpperAZ c

/-- Syntactic YYYY-MM-DD shape: four digits, dash, two digits, dash, two digits. -/
def wellFormedYMD (s : String) : Bool :=
  match s.data with
  | [y1, y2, y3, y4, d1, m1, m2, d2, a1, a2] =>
    isDigitJS y1 && isDigitJS y2 && isDigitJS y3 && isDigitJS y4 && d1 = '-' &&
      isDigitJS m1 && isDigitJS m2 && d2 = '-' && isDigitJS a1 && isDigitJS a2
  | _ => false

theorem string_eq_of_data (s t : String) (h : s.data = t.data) : s = t := by
  cases s
  cases t
  cases h
  rfl

theorem data_append (s t : String) : (s ++ t).data = s.data ++ t.data := by
  cases s
  cases t
  rfl

theorem exists_four_of_length {α : Type} :
    ∀ (l : List α), l.length = 4 → ∃ a b c d, l = [a, b, c, d] := by
  intro l h
  cases l with
  | nil => simp at h
  | cons a l1 =>
    cases l1 with
    | nil => simp at h
    | cons b l2 =>
      cases l2 with
      | nil => simp at h
      | cons c l3 =>
        cases l3 with
        | nil => simp at h
        | cons d l4 =>
          cases l4 with
          | nil => exact ⟨a, b, c, d, rfl⟩
          | cons e l5 => simp at h

theorem digit_ne_slash (c : Char) (h : isDigitJS c = true) : c ≠ '/' := by
  intro hc
  subst hc
  exact absurd h (by decide)

theorem digit_isWord (c : Char) (h : isDigitJS c = true) : isWordJS c = true := by
  simp [isWordJS, h]

theorem alpha_isWord (c : Char) (h : isAsciiAlpha c = true) : isWordJS c = true := by
  simp only [isAsciiAlpha, isLowerAZ, isUpperAZ, Bool.or_eq_true] at h
  rcases h with h | h <;> simp [isWordJS, h]

theorem alpha_ne_slash (c : Char) (h : isAsciiAlpha c = true) : c ≠ '/' := by
  intro hc
  subst hc
  exact absurd h (by decide)

theorem word_not_space (c : Char) (h : isWordJS c = true) : isSpaceJS c = false := by
  by_contra hs
  rw [Bool.not_eq_false] at hs
  simp only [isSpaceJS, Bool.or_eq_true, decide_eq_true_eq] at hs
  rcases hs with ((((rfl | rfl) | rfl) | rfl) | rfl) | rfl <;> exact absurd h (by decide)

theorem takeWhile_append_stop {α : Type} (p : α → Bool) :
    ∀ (l : List α) (c : α) (r : List α), (∀ x ∈ l, p x = true) → p c = false →
      (l ++ c :: r).takeWhile p = l ∧ (l ++ c :: r).dropWhile p = c :: r := by
  intro l
  induction l with
  | nil =>
    intro c r _ hc
    constructor
    · rw [List.nil_append, List.takeWhile_cons_of_neg (by simp [hc])]
    · rw [List.nil_append, List.dropWhile_cons_of_neg (by simp [hc])]
  | cons x xs ih =>
    intro c r hl hc
    have hx : p x = true := hl x (List.mem_cons_self x xs)
    have hxs : ∀ z ∈ xs, p z = true := fun z hz => hl z (List.mem_cons_of_mem x hz)
    obtain ⟨h1, h2⟩ := ih c r hxs hc
    constructor
    · rw [List.cons_append, List.takeWhile_cons_of_pos (by simp [hx]), h1]
    · rw [List.cons_append, List.dropWhile_cons_of_pos (by simp [hx]), h2]

theorem lookup_mem_values {β : Type} :
    ∀ (l : List (String × β)) (k : String) (v : β),
      l.lookup k = some v → v ∈ l.map Prod.snd := by
  intro l
  induction l with
  | nil => intro k v h; simp at h
  | cons p t ih =>
    intro k v h
    by_cases hk : (k == p.1) = true
    · simp only [List.lookup, hk] at h
      cases h
      simp
    · have hb : (k == p.1) = false := by simpa using hk
      simp only [List.lookup, hb] at h
      simp [ih _ _ h]

theorem month_string_shape (w : String) :
    ∃ m1 m2, ((monthMap.lookup w).getD "01").data = [m1, m2]
      ∧ isDigitJS m1 = true ∧ isDigitJS m2 = true := by
  cases h : monthMap.lookup w with
  | none => exact ⟨'0', '1', rfl, by decide, by decide⟩
  | some v =>
    have hv := lookup_mem_values monthMap w v h
    fin_cases hv <;> exact ⟨_, _, rfl, by decide, by decide⟩

theorem wellFormedYMD_of_data (s : String) (y1 y2 y3 y4 m1 m2 d1 d2 : Char)
    (hs : s.data = [y1, y2, y3, y4, '-', m1, m2, '-', d1, d2])
    (h1 : isDigitJS y1 = true) (h2 : isDigitJS y2 = true) (h3 : isDigitJS y3 = true)
    (h4 : isDigitJS y4 = true) (h5 : isDigitJS m1 = true) (h6 : isDigitJS m2 = true)
    (h7 : isDigitJS d1 = true) (h8 : isDigitJS d2 = true) : wellFormedYMD s = true := by
  unfold wellFormedYMD
  rw [hs]
  simp [h1, h2, h3, h4, h5, h6, h7, h8]

theorem string_eta (s : String) : (⟨s.data⟩ : String) = s := by
  cases s
  rfl

theorem exists_one_of_length {α : Type} :
    ∀ (l : List α), l.length = 1 → ∃ a, l = [a] := by
  intro l h
  cases l with
  | nil => simp at h
  | cons a t =>
    cases t with
    | nil => exact ⟨a, rfl⟩
    | cons b t2 => simp at h

theorem exists_two_of_length {α : Type} :
    ∀ (l : List α), l.length = 2 → ∃ a b, l = [a, b] := by
  intro l h
  cases l with
  | nil => simp at h
  | cons a t =>
    cases t with
    | nil => simp at h
    | cons b t2 =>
      cases t2 with
      | nil => exact ⟨a, b, rfl⟩
      | cons c t3 => simp at h

theorem normalizeDate_year (s : String) (hlen : s.data.length = 4)
    (hdig : ∀ c ∈ s.data, isDigitJS c = true) :
    normalizeDate s = s ++ "-01-01" ∧ wellFormedYMD (normalizeDate s) = true := by
  obtain ⟨a, b, c, d, hs⟩ := exists_four_of_length s.data hlen
  have ha := hdig a (by rw [hs]; simp)
  have hb := hdig b (by rw [hs]; simp)
  have hc := hdig c (by rw [hs]; simp)
  have hd := hdig d (by rw [hs]; simp)
  have hy : isYYYY s.data = true := by rw [hs]; simp [isYYYY, ha, hb, hc, hd]
  have h1 : normalizeDate s = s ++ "-01-01" := by
    unfold normalizeDate
    rw [if_pos hy]
  refine ⟨h1, ?_⟩
  rw [h1]
  apply wellFormedYMD_of_data _ a b c d '0' '1' '0' '1' _ ha hb hc hd (by decide) (by decide)
    (by decide) (by decide)
  rw [data_append, hs]
  rfl

theorem normalizeDate_mmYYYY (m y : String) (hm : m.data.length = 1 ∨ m.data.length = 2)
    (hmd : ∀ c ∈ m.data, isDigitJS c = true)
    (hy : y.data.length = 4) (hyd : ∀ c ∈ y.data, isDigitJS c = true) :
    normalizeDate (m ++ "/" ++ y)
        = y ++ "-" ++ (if m.data.length < 2 then "0" ++ m else m) ++ "-01"
      ∧ wellFormedYMD (normalizeDate (m ++ "/" ++ y)) = true := by
  obtain ⟨y1, y2, y3, y4, hys⟩ := exists_four_of_length y.data hy
  have hy1 := hyd y1 (by rw [hys]; simp)
  have hy2 := hyd y2 (by rw [hys]; simp)
  have hy3 := hyd y3 (by rw [hys]; simp)
  have hy4 := hyd y4 (by rw [hys]; simp)
  have hyy : isYYYY [y1, y2, y3, y4] = true := by simp [isYYYY, hy1, hy2, hy3, hy4]
  have hdata : (m ++ "/" ++ y).data = m.data ++ '/' :: [y1, y2, y3, y4] := by
    rw [data_append, data_append, hys]
    simp [show ("/" : String).data = ['/'] from rfl]
  rcases hm with hm1 | hm2
  · obtain ⟨a, hms⟩ := exists_one_of_length m.data hm1
    have ha := hmd a (by rw [hms]; simp)
    have hn2 : isYYYY (m.data ++ '/' :: [y1, y2, y3, y4]) = false := by
      rw [hms]
      simp [isYYYY]
    have hmm2 : matchMMYYYY (m.data ++ '/' :: [y1, y2, y3, y4])
        = some ([a], [y1, y2, y3, y4]) := by
      rw [hms]
      simp [matchMMYYYY, ha, hyy]
    have hres : normalizeDate (m ++ "/" ++ y)
        = (⟨[y1, y2, y3, y4]⟩ : String) ++ "-" ++ (⟨['0', a]⟩ : String) ++ "-01" := by
      unfold normalizeDate
      rw [hdata, if_neg (by simp [hn2]), hmm2]
      rfl
    have hlt : m.data.length < 2 := by simp [hms]
    constructor
    · rw [hres, if_pos hlt]
      apply string_eq_of_data
      simp [data_append, hys, hms,
        show ("-" : String).data = ['-'] from rfl,
        show ("-01" : String).data = ['-', '0', '1'] from rfl,
        show ("0" : String).data = ['0'] from rfl]
    · rw [hres]
      apply wellFormedYMD_of_data _ y1 y2 y3 y4 '0' a '0' '1' _ hy1 hy2 hy3 hy4 (by decide) ha
        (by decide) (by decide)
      simp [data_append,
        show ("-" : String).data = ['-'] from rfl,
        show ("-01" : String).data = ['-', '0', '1'] from rfl]
  · obtain ⟨a, b, hms⟩ := exists_two_of_length m.data hm2
    have ha := hmd a (by rw [hms]; simp)
    have hb := hmd b (by rw [hms]; simp)
    have hn2 : isYYYY (m.data ++ '/' :: [y1, y2, y3, y4]) = false := by
      rw [hms]
      simp [isYYYY]
    have hmm2 : matchMMYYYY (m.data ++ '/' :: [y1, y2, y3, y4])
        = some ([a, b], [y1, y2, y3, y4]) := by
      rw [hms]
      simp [matchMMYYYY, ha, hb, hyy, digit_ne_slash b hb]
    have hres : normalizeDate (m ++ "/" ++ y)
        = (⟨[y1, y2, y3, y4]⟩ : String) ++ "-" ++ (⟨[a, b]⟩ : String) ++ "-01" := by
      unfold normalizeDate
      rw [hdata, if_neg (by simp [hn2]), hmm2]
      rfl
    have hge : ¬(m.data.length < 2) := by simp [hms]
    constructor
    · rw [hres, if_neg hge]
      apply string_eq_of_data
      simp [data_append, hys, hms,
        show ("-" : String).data = ['-'] from rfl,
        show ("-01" : String).data = ['-', '0', '1'] from rfl]
    · rw [hres]
      apply wellFormedYMD_of_data _ y1 y2 y3 y4 a b '0' '1' _ hy1 hy2 hy3 hy4 ha hb
        (by decide) (by decide)
      simp [data_append,
        show ("-" : String).data = ['-'] from rfl,
        show ("-01" : String).data = ['-', '0', '1'] from rfl]

theorem normalizeDate_monthYYYY (w y : String) (hw : w.data ≠ [])
    (hwa : ∀ c ∈ w.data, isAsciiAlpha c = true)
    (hy : y.data.length = 4) (hyd : ∀ c ∈ y.data, isDigitJS c = true) :
    normalizeDate (w ++ " " ++ y)
        = y ++ "-" ++ (monthMap.lookup (lowerStr w)).getD "01" ++ "-01"
      ∧ wellFormedYMD (normalizeDate (w ++ " " ++ y)) = true := by
  obtain ⟨y1, y2, y3, y4, hys⟩ := exists_four_of_length y.data hy
  have hy1 := hyd y1 (by rw [hys]; simp)
  have hy2 := hyd y2 (by rw [hys]; simp)
  have hy3 := hyd y3 (by rw [hys]; simp)
  have hy4 := hyd y4 (by rw [hys]; simp)
  have hyy : isYYYY [y1, y2, y3, y4] = true := by simp [isYYYY, hy1, hy2, hy3, hy4]
  have hdata : (w ++ " " ++ y).data = w.data ++ ' ' :: [y1, y2, y3, y4] := by
    rw [data_append, data_append, hys]
    simp [show (" " : String).data = [' '] from rfl]
  have hn2 : isYYYY (w.data ++ ' ' :: [y1, y2, y3, y4]) = false := by
    have hne : (w.data ++ ' ' :: [y1, y2, y3, y4]).length ≠ 4 := by
      have := List.length_pos.mpr hw
      simp only [List.length_append, List.length_cons]
      omega
    simp [isYYYY, hne]
  have hmm2 : matchMMYYYY (w.data ++ ' ' :: [y1, y2, y3, y4]) = none := by
    obtain ⟨c1, wt, hwt⟩ : ∃ c1 wt, w.data = c1 :: wt := by
      cases hwd : w.data with
      | nil => exact absurd hwd hw
      | cons c1 wt => exact ⟨c1, wt, rfl⟩
    rw [hwt]
    cases wt with
    | nil => simp [matchMMYYYY, digit_ne_slash y1 hy1]
    | cons c2 wt2 =>
      have hc2 := hwa c2 (by rw [hwt]; simp)
      cases hx : wt2 ++ ' ' :: [y1, y2, y3, y4] with
      | nil => simp at hx
      | cons c3 rest =>
        have hc3 : c3 ≠ '/' := by
          have hmem : c3 ∈ wt2 ++ ' ' :: [y1, y2, y3, y4] := by rw [hx]; simp
          rcases List.mem_append.mp hmem with hmw | hms2
          · exact alpha_ne_slash c3 (hwa c3 (by rw [hwt]; simp [hmw]))
          · rcases List.mem_cons.mp hms2 with rfl | hmy
            · decide
            · simp at hmy
              rcases hmy with rfl | rfl | rfl | rfl <;> exact digit_ne_slash _ (by assumption)
        simp only [List.cons_append, hx]
        simp [matchMMYYYY, alpha_ne_slash c2 hc2, hc3]
  have hword : ∀ x ∈ w.data, isWordJS x = true := fun x hx => alpha_isWord x (hwa x hx)
  obtain ⟨htake, hdrop⟩ :=
    takeWhile_append_stop isWordJS w.data ' ' [y1, y2, y3, y4] hword (by decide)
  have hnsp1 : isSpaceJS y1 = false := word_not_space y1 (digit_isWord y1 hy1)
  have hmy2 : matchMonthYYYY (w.data ++ ' ' :: [y1, y2, y3, y4])
      = some (w.data, [y1, y2, y3, y4]) := by
    unfold matchMonthYYYY
    rw [htake, hdrop, if_neg hw,
      List.takeWhile_cons_of_pos (by decide), List.takeWhile_cons_of_neg (by simp [hnsp1]),
      List.dropWhile_cons_of_pos (by decide), List.dropWhile_cons_of_neg (by simp [hnsp1])]
    simp [hyy]
  have hres : normalizeDate (w ++ " " ++ y)
      = (⟨[y1, y2, y3, y4]⟩ : String) ++ "-"
          ++ (monthMap.lookup (lowerStr (⟨w.data⟩ : String))).getD "01" ++ "-01" := by
    unfold normalizeDate
    rw [hdata, if_neg (by simp [hn2]), hmm2, hmy2]
  rw [string_eta w] at hres
  obtain ⟨m1, m2, hmdat, hm1, hm2⟩ := month_string_shape (lowerStr w)
  have hyeq : (⟨[y1, y2, y3, y4]⟩ : String) = y := string_eq_of_data _ _ (by rw [hys])
  constructor
  · rw [hres, hyeq]
  · rw [hres]
    apply wellFormedYMD_of_data _ y1 y2 y3 y4 m1 m2 '0' '1' _ hy1 hy2 hy3 hy4 hm1 hm2
      (by decide) (by decide)
    simp [data_append, hmdat,
      show ("-" : String).data = ['-'] from rfl,
      show ("-01" : String).data = ['-', '0', '1'] from rfl]

/-- C3: normalizeDate maps a bare four-digit year to YYYY-01-01, MM/YYYY to
YYYY-MM-01 with the month zero-padded, and Month YYYY to YYYY-MM-01 through
the fixed month-name table; "2021" gives "2021-01-01", "03/2020" gives
"2020-03-01", "March 2019" gives "2019-03-01", and every output for these
shapes is a well-formed YYYY-MM-DD string. -/
theorem c3_normalizeDate_shapes :
    (normalizeDate "2021" = "2021-01-01" ∧ normalizeDate "03/2020" = "2020-03-01"
        ∧ normalizeDate "March 2019" = "2019-03-01")
      ∧ (∀ s : String, s.data.length = 4 → (∀ c ∈ s.data, isDigitJS c = true) →
          normalizeDate s = s ++ "-01-01" ∧ wellFormedYMD (normalizeDate s) = true)
      ∧ (∀ m y : String, (m.data.length = 1 ∨ m.data.length = 2) →
          (∀ c ∈ m.data, isDigitJS c = true) →
          y.data.length = 4 → (∀ c ∈ y.data, isDigitJS c = true) →
          normalizeDate (m ++ "/" ++ y)
              = y ++ "-" ++ (if m.data.length < 2 then "0" ++ m else m) ++ "-01"
            ∧ wellFormedYMD (normalizeDate (m ++ "/" ++ y)) = true)
      ∧ (∀ w y : String, w.data ≠ [] → (∀ c ∈ w.data, isAsciiAlpha c = true) →
          y.data.length = 4 → (∀ c ∈ y.data, isDigitJS c = true) →
          normalizeDate (w ++ " " ++ y)
              = y ++ "-" ++ (monthMap.lookup (lowerStr w)).getD "01" ++ "-01"
            ∧ wellFormedYMD (normalizeDate (w ++ " " ++ y)) = true) :=
  ⟨⟨by decide, by decide, by decide⟩, normalizeDate_year, normalizeDate_mmYYYY,
    normalizeDate_monthYYYY⟩

/-- Witness for C3 at the concrete dates 1999, 7/1984 and Sep 2000. -/
theorem c3_normalizeDate_shapes_witness :
    (normalizeDate "1999" = "1999" ++ "-01-01"
        ∧ wellFormedYMD (normalizeDate "1999") = true)
      ∧ (normalizeDate ("7" ++ "/" ++ "1984")
            = "1984" ++ "-" ++ (if ("7" : String).data.length < 2 then "0" ++ "7" else "7") ++ "-01"
          ∧ wellFormedYMD (normalizeDate ("7" ++ "/" ++ "1984")) = true)
      ∧ (normalizeDate ("Sep" ++ " " ++ "2000")
            = "2000" ++ "-" ++ (monthMap.lookup (lowerStr "Sep")).getD "01" ++ "-01"
          ∧ wellFormedYMD (normalizeDate ("Sep" ++ " " ++ "2000")) = true) :=
  ⟨c3_normalizeDate_shapes.2.1 "1999" (by decide) (by decide),
   c3_normalizeDate_shapes.2.2.1 "7" "1984" (Or.inl (by decide)) (by decide) (by decide)
     (by decide),
   c3_normalizeDate_shapes.2.2.2 "Sep" "2000" (by decide) (by decide) (by decide) (by decide)⟩

end ResumeAnalysis
